import Mathlib

/-!
Verification development for the `fstd2nc` timeseries mixin
(`fstd2nc/mixins/series.py`).

The Python module operates on two layers:

* a column-oriented record table mutated once at construction time by the
  record classifier (`Series.__init__`);
* an object graph of variables and axes mutated in place by the
  `Series._makevars` passes (axis remapping, forecast squashing, station
  binding).

The embedding below mirrors that structure.  Python object identity, which
the module relies on for axis sharing (`id(...)` keys, `is` comparisons and
cached dimension objects), is modelled with an explicit heap: axes and
coordinate variables live in an arena and variables refer to them by index,
so "the same object by reference" becomes "the same arena index".
-/

set_option autoImplicit false

namespace Fstd2ncSeries

/-! ## List helper lemmas

Small facts about `List.getD`, `List.set`, `List.eraseIdx` and a
first-index search, used to reason about the in-place list mutations the
Python code performs (`var.axes[i] = ...`, `var.axes.pop(i)`,
`dims.index(...)`). -/

/-- First index in a list satisfying a predicate (Python `list.index`,
`Var.getaxis` search). -/
def findIdxP {α : Type} (p : α → Bool) : List α → Option Nat
  | [] => none
  | a :: as => if p a then some 0 else (findIdxP p as).map (fun n => n + 1)

theorem findIdxP_spec {α : Type} (p : α → Bool) (l : List α) (k : Nat) (d : α)
    (h : findIdxP p l = some k) :
    k < l.length ∧ p (l.getD k d) = true ∧ ∀ m, m < k → p (l.getD m d) = false := by
  induction l generalizing k with
  | nil => simp [findIdxP] at h
  | cons a as ih =>
    by_cases hpa : p a = true
    · simp [findIdxP, hpa] at h
      subst h
      refine ⟨Nat.succ_pos _, by simpa using hpa, ?_⟩
      intro m hm
      omega
    · simp [findIdxP, hpa] at h
      obtain ⟨k0, hk0, rfl⟩ := h
      obtain ⟨h1, h2, h3⟩ := ih k0 hk0
      refine ⟨by simpa using Nat.succ_lt_succ h1, by simpa using h2, ?_⟩
      intro m hm
      cases m with
      | zero => simpa using hpa
      | succ m0 =>
        have := h3 m0 (by omega)
        simpa using this

theorem findIdxP_eq_some {α : Type} (p : α → Bool) (l : List α) (k : Nat) (d : α)
    (hk : k < l.length) (hp : p (l.getD k d) = true)
    (hm : ∀ m, m < k → p (l.getD m d) = false) :
    findIdxP p l = some k := by
  induction l generalizing k with
  | nil => simp at hk
  | cons a as ih =>
    cases k with
    | zero =>
      simp at hp
      simp [findIdxP, hp]
    | succ k0 =>
      have hpa : p a = false := by
        have := hm 0 (Nat.succ_pos _)
        simpa using this
      have h1 : findIdxP p as = some k0 := by
        refine ih k0 (by simpa using Nat.lt_of_succ_lt_succ hk) (by simpa using hp) ?_
        intro m hm0
        have := hm (m + 1) (by omega)
        simpa using this
      simp [findIdxP, hpa, h1]

theorem findIdxP_eq_none {α : Type} (p : α → Bool) (l : List α) (d : α)
    (hm : ∀ m, m < l.length → p (l.getD m d) = false) :
    findIdxP p l = none := by
  induction l with
  | nil => simp [findIdxP]
  | cons a as ih =>
    have hpa : p a = false := by
      have := hm 0 (Nat.succ_pos _)
      simpa using this
    have h1 : findIdxP p as = none := by
      refine ih ?_
      intro m hm0
      have := hm (m + 1) (by simpa using Nat.succ_lt_succ hm0)
      simpa using this
    simp [findIdxP, hpa, h1]

theorem getD_map_lt {α β : Type} (f : α → β) (l : List α) (m : Nat) (d : α) (e : β)
    (h : m < l.length) : (l.map f).getD m e = f (l.getD m d) := by
  induction l generalizing m with
  | nil => simp at h
  | cons a as ih =>
    cases m with
    | zero => simp
    | succ m0 => simpa using ih m0 (by simpa using Nat.lt_of_succ_lt_succ h)

theorem getD_set_self {α : Type} (l : List α) (j : Nat) (b d : α)
    (h : j < l.length) : (l.set j b).getD j d = b := by
  induction l generalizing j with
  | nil => simp at h
  | cons a as ih =>
    cases j with
    | zero => simp
    | succ j0 => simpa using ih j0 (by simpa using Nat.lt_of_succ_lt_succ h)

theorem getD_set_ne {α : Type} (l : List α) (j m : Nat) (b d : α)
    (h : j ≠ m) : (l.set j b).getD m d = l.getD m d := by
  induction l generalizing j m with
  | nil => simp
  | cons a as ih =>
    cases j with
    | zero =>
      cases m with
      | zero => exact absurd rfl h
      | succ m0 => simp
    | succ j0 =>
      cases m with
      | zero => simp
      | succ m0 => simpa using ih j0 m0 (by omega)

theorem getD_append_lt {α : Type} (l l2 : List α) (m : Nat) (d : α)
    (h : m < l.length) : (l ++ l2).getD m d = l.getD m d := by
  induction l generalizing m with
  | nil => simp at h
  | cons a as ih =>
    cases m with
    | zero => simp
    | succ m0 => simpa using ih m0 (by simpa using Nat.lt_of_succ_lt_succ h)

theorem getD_eraseIdx_lt {α : Type} (l : List α) (k m : Nat) (d : α)
    (h : m < k) : (l.eraseIdx k).getD m d = l.getD m d := by
  induction l generalizing k m with
  | nil => simp
  | cons a as ih =>
    cases k with
    | zero => omega
    | succ k0 =>
      cases m with
      | zero => simp [List.eraseIdx]
      | succ m0 =>
        simpa [List.eraseIdx] using ih k0 m0 (by omega)

theorem getD_eraseIdx_ge {α : Type} (l : List α) (k m : Nat) (d : α)
    (hk : k < l.length) (h : k ≤ m) :
    (l.eraseIdx k).getD m d = l.getD (m + 1) d := by
  induction l generalizing k m with
  | nil => simp at hk
  | cons a as ih =>
    cases k with
    | zero => simp [List.eraseIdx]
    | succ k0 =>
      cases m with
      | zero => omega
      | succ m0 =>
        simpa [List.eraseIdx] using
          ih k0 m0 (by simpa using Nat.lt_of_succ_lt_succ hk) (by omega)

theorem length_eraseIdx_lt {α : Type} (l : List α) (k : Nat) (hk : k < l.length) :
    (l.eraseIdx k).length = l.length - 1 := by
  induction l generalizing k with
  | nil => simp at hk
  | cons a as ih =>
    cases k with
    | zero => simp [List.eraseIdx]
    | succ k0 =>
      have hk0 : k0 < as.length := by simpa using Nat.lt_of_succ_lt_succ hk
      have := ih k0 hk0
      simp only [List.eraseIdx, List.length_cons, this]
      omega

theorem map_eraseIdx {α β : Type} (f : α → β) (l : List α) (k : Nat) :
    (l.eraseIdx k).map f = (l.map f).eraseIdx k := by
  induction l generalizing k with
  | nil => simp
  | cons a as ih =>
    cases k with
    | zero => simp [List.eraseIdx]
    | succ k0 => simp [List.eraseIdx, ih k0]

theorem map_setIdx {α β : Type} (f : α → β) (l : List α) (k : Nat) (b : α) :
    (l.set k b).map f = (l.map f).set k (f b) := by
  induction l generalizing k with
  | nil => simp
  | cons a as ih =>
    cases k with
    | zero => simp
    | succ k0 => simp [ih k0]

theorem mem_of_getD {α : Type} (l : List α) (a d : α) (m : Nat)
    (hm : m < l.length) (h : l.getD m d = a) : a ∈ l := by
  induction l generalizing m with
  | nil => simp at hm
  | cons x xs ih =>
    cases m with
    | zero =>
      simp at h
      simp [h]
    | succ m0 =>
      have := ih m0 (by simpa using Nat.lt_of_succ_lt_succ hm) (by simpa using h)
      simp [this]

theorem getD_of_not_mem {α : Type} (l : List α) (a d : α) (m : Nat)
    (hm : m < l.length) (h : ¬ a ∈ l) : l.getD m d ≠ a := by
  intro hc
  exact h (mem_of_getD l a d m hm hc)

theorem getD_append_self {α : Type} (l : List α) (a d : α) :
    (l ++ [a]).getD l.length d = a := by
  induction l with
  | nil => simp
  | cons x xs ih => exact ih

theorem mem_imp_getD {α : Type} (l : List α) (a d : α) (h : a ∈ l) :
    ∃ m, m < l.length ∧ l.getD m d = a := by
  induction l with
  | nil => simp at h
  | cons x xs ih =>
    rcases List.mem_cons.mp h with h0 | h0
    · exact ⟨0, Nat.succ_pos _, by simpa using h0.symm⟩
    · obtain ⟨m, hm, he⟩ := ih h0
      exact ⟨m + 1, by simpa using Nat.succ_lt_succ hm, by simpa using he⟩

theorem not_mem_of_getD_ne {α : Type} (l : List α) (a d : α)
    (h : ∀ m, m < l.length → l.getD m d ≠ a) : ¬ a ∈ l := by
  intro hc
  obtain ⟨m, hm, he⟩ := mem_imp_getD l a d hc
  exact h m hm he

/-- Association-list lookup (first match wins), used for the Python `dict`
caches in `_makevars`. -/
def alookup {α β : Type} [DecidableEq α] : List (α × β) → α → Option β
  | [], _ => none
  | (k, v) :: rest, a => if k = a then some v else alookup rest a

theorem alookup_append_of_none {α β : Type} [DecidableEq α]
    (l l2 : List (α × β)) (a : α) (h : alookup l a = none) :
    alookup (l ++ l2) a = alookup l2 a := by
  induction l with
  | nil => simp
  | cons p rest ih =>
    obtain ⟨k, v⟩ := p
    by_cases hk : k = a
    · simp [alookup, hk] at h
    · simp [alookup, hk] at h ⊢
      exact ih h

theorem alookup_append_single {α β : Type} [DecidableEq α]
    (l : List (α × β)) (a : α) (b : β) (h : alookup l a = none) :
    alookup (l ++ [(a, b)]) a = some b := by
  rw [alookup_append_of_none l [(a, b)] a h]
  simp [alookup]

/-! ## Record classifier (`Series.__init__`, lines 94-125)

The record table is modelled one row at a time.  A masked column entry is a
value together with its mask bit (numpy masked arrays keep the value even
when masked); the optional `leadtime` / `reftime` columns are `Option`-
valued since the code guards on their presence (`if 'leadtime' in fields`).
-/

/-- A masked scalar: numpy masked-array element (value plus mask bit). -/
structure MInt where
  val : Int
  mask : Bool
deriving DecidableEq, Repr

/-- One row of the record table before classification, with the fields the
classifier reads or writes: `typvar`, `grtyp`, `ip1`, `ip3`, `ig1`-`ig4`,
and the optional `leadtime` / `reftime` columns. -/
structure RawRecord where
  typvar : String
  grtyp : String
  ip1 : Int
  ip3 : Int
  ig1 : Int
  ig2 : Int
  ig3 : Int
  ig4 : Int
  leadtime : Option MInt
  reftime : Option MInt
deriving DecidableEq, Repr

/-- One row after classification: the same fields plus the derived
`station_id` column. -/
structure ClassifiedRecord where
  typvar : String
  grtyp : String
  ip1 : Int
  ip3 : Int
  ig1 : Int
  ig2 : Int
  ig3 : Int
  ig4 : Int
  leadtime : Option MInt
  reftime : Option MInt
  station_id : MInt
deriving DecidableEq, Repr

/-- Predicate `is_series`: `(typvar == b'T ') & (grtyp in (b'+', b'Y', b'T'))`
(line 97; the type code is the two-byte field `b'T '`). -/
def isSeries (r : RawRecord) : Bool :=
  r.typvar = "T " && (r.grtyp = "+" || r.grtyp = "Y" || r.grtyp = "T")

/-- Predicate `is_split_series`: `(typvar == b'T ') & (grtyp == b'+')` (line 99). -/
def isSplitSeries (r : RawRecord) : Bool :=
  r.typvar = "T " && r.grtyp = "+"

/-- Cast to a signed 32-bit value, as `np.ma.array(..., dtype='int32')`
does on line 102. -/
def toInt32 (n : Int) : Int :=
  let m := n % 4294967296
  if m < 2147483648 then m else m - 4294967296

/-- The classifier body (lines 102-125) applied to one record:
`station_id` is `ip3` cast to int32 and masked where not split-series;
`leadtime` / `reftime` masks are OR-ed with `is_series`; `ig1`-`ig4` and
`ip1` are zeroed on series rows. -/
def classifyRecord (r : RawRecord) : ClassifiedRecord :=
  { typvar := r.typvar
    grtyp := r.grtyp
    ip1 := if isSeries r then 0 else r.ip1
    ip3 := r.ip3
    ig1 := if isSeries r then 0 else r.ig1
    ig2 := if isSeries r then 0 else r.ig2
    ig3 := if isSeries r then 0 else r.ig3
    ig4 := if isSeries r then 0 else r.ig4
    leadtime := r.leadtime.map (fun m => ⟨m.val, m.mask || isSeries r⟩)
    reftime := r.reftime.map (fun m => ⟨m.val, m.mask || isSeries r⟩)
    station_id := ⟨toInt32 r.ip3, ! isSplitSeries r⟩ }

/-- The whole-table classifier: one pass over all rows. -/
def classifyTable (rs : List RawRecord) : List ClassifiedRecord :=
  rs.map classifyRecord

/-! ## Object model for `_makevars`

Modelled from the spec: the generic container model (`_var_type`,
`_axis_type`, `_dim_type`, and the `dims` / `getaxis` accessors) lives in
the `fstd2nc.mixins` package, outside the sources at hand.  Per the spec an
axis is an immutable named 1-D coordinate with an attribute mapping and
either a backing value array (valued axis) or a bare length (pure
dimension); a variable is a named array with an ordered axis list, an
attribute mapping, a dependency list and a record back-reference.

Python object identity (axis sharing, `id(...)` cache keys, `is` checks)
is modelled by an arena (`Heap`): axes and coordinate variables are stored
in lists and referenced by index, so two variables share an axis object
exactly when they hold the same index.  Level values are abstracted to
`Int` (none of the claims depends on floating-point level contents). -/

/-- Attribute values occurring in this module (strings, and the integer
vertical-coordinate kind). -/
inductive AttVal
  | str (s : String)
  | int (n : Int)
deriving DecidableEq, Repr

/-- An axis object: `_axis_type` when `vals` is present, `_dim_type`
otherwise (`dimLen` then gives the length). -/
structure Axis where
  name : String
  atts : List (String × AttVal)
  vals : Option (List Int)
  dimLen : Nat
deriving DecidableEq, Repr

/-- Default axis used for out-of-range arena reads; its empty name never
collides with a real axis name. -/
def dAx : Axis := { name := "", atts := [], vals := none, dimLen := 0 }

/-- Constructor `_axis_type(name, atts, array)`: a valued axis. -/
def axisType (name : String) (atts : List (String × AttVal)) (vals : List Int) : Axis :=
  { name := name, atts := atts, vals := some vals, dimLen := vals.length }

/-- Constructor `_dim_type(name, length)`: a pure dimension. -/
def dimType (name : String) (n : Nat) : Axis :=
  { name := name, atts := [], vals := none, dimLen := n }

/-- Axis length, `len(axis)`. -/
def Axis.len (a : Axis) : Nat :=
  match a.vals with
  | some v => v.length
  | none => a.dimLen

/-- Data carried by a coordinate variable (`_var_type` used as a
coordinate): a 2-D character array (one string per station row), an hour
array, or a scalar timestamp. -/
inductive CoordData
  | chars (rows : List String)
  | hours (vs : List Int)
  | scalarTime (t : Int)
deriving DecidableEq, Repr

/-- A coordinate variable (`_var_type`): name, attributes, axis references
into the arena, and its data array. -/
structure Coord where
  name : String
  atts : List (String × AttVal)
  axes : List Nat
  data : CoordData
deriving DecidableEq, Repr

/-- Default coordinate for out-of-range arena reads. -/
def dCoord : Coord := { name := "", atts := [], axes := [], data := CoordData.scalarTime 0 }

/-- The object arena: axis objects and coordinate-variable objects,
referenced by index.  Sharing by reference = equal index. -/
structure Heap where
  axes : List Axis
  coords : List Coord
deriving DecidableEq, Repr

/-- Name of the axis object at index `i`. -/
def Heap.axName (h : Heap) (i : Nat) : String := (h.axes.getD i dAx).name

/-- Length of the axis object at index `i`. -/
def Heap.axLen (h : Heap) (i : Nat) : Nat := (h.axes.getD i dAx).len

/-- Value array of the axis object at index `i` (empty for dimensions). -/
def Heap.axVals (h : Heap) (i : Nat) : List Int := ((h.axes.getD i dAx).vals).getD []

/-- Allocate a fresh axis object; returns the new arena and the index. -/
def Heap.allocAxis (h : Heap) (a : Axis) : Heap × Nat :=
  ({ h with axes := h.axes ++ [a] }, h.axes.length)

/-- Allocate a fresh coordinate object; returns the new arena and index. -/
def Heap.allocCoord (h : Heap) (c : Coord) : Heap × Nat :=
  ({ h with coords := h.coords ++ [c] }, h.coords.length)

/-- In-place rename of the axis object at index `i` (models the Python
statement `level.name = 'level'` on line 231, which mutates the axis object
itself rather than the variable's axis list). -/
def Heap.renameAxis (h : Heap) (i : Nat) (nm : String) : Heap :=
  { h with axes := h.axes.set i { h.axes.getD i dAx with name := nm } }

/-- A data variable: name, attributes, axis references, dependency
(coordinate) references, and the shape of its `record_id` back-reference
array. -/
structure Var where
  name : String
  atts : List (String × AttVal)
  axes : List Nat
  deps : List Nat
  recShape : List Nat
deriving DecidableEq, Repr

/-- Accessor `var.dims`: the list of axis names, in order. -/
def Var.dims (v : Var) (h : Heap) : List String := v.axes.map h.axName

/-- Attribute lookup (`var.atts.get(key)`). -/
def getAtt (atts : List (String × AttVal)) (k : String) : Option AttVal :=
  alookup atts k

/-- Attribute update (`var.atts[key] = value`; replaces an existing key,
else appends in insertion order like a Python dict). -/
def setAtt : List (String × AttVal) → String → AttVal → List (String × AttVal)
  | [], k, v => [(k, v)]
  | (k0, v0) :: rest, k, v =>
    if k0 = k then (k, v) :: rest else (k0, v0) :: setAtt rest k v

/-- Check `var.atts.get('typvar') == 'T'` (the decoded per-variable attribute,
line 191/200/211). -/
def isTypvarT (v : Var) : Bool := getAtt v.atts "typvar" = some (AttVal.str "T")

/-- Check `var.atts.get('grtyp') == '+'`. -/
def isGrtypPlus (v : Var) : Bool := getAtt v.atts "grtyp" = some (AttVal.str "+")

/-- Check `var.atts.get('grtyp') == 'Y'`. -/
def isGrtypY (v : Var) : Bool := getAtt v.atts "grtyp" = some (AttVal.str "Y")

/-! ## Axis extractor: the forecast axis (lines 164-173) -/

/-- Modelled from the spec: `stamp2datetime_scalar` (dates mixin, not among
the sources at hand) converts the `dateo` stamp of the auxiliary record to
a datetime; only its hour-of-day is used.  The origin timestamp is taken as
seconds, so the hour-of-day is `t / 3600 % 24`. -/
def hourOfDay (t : Nat) : Nat := t / 3600 % 24

/-- Construction of the forecast axis from the `'HH'` auxiliary record
(lines 166-173): the raw validity hours minus the origin record's
hour-of-day, exposed as a valued axis with unit `hours`. -/
def makeForecastAxis (dateo : Nat) (d : List Int) : Axis :=
  axisType "forecast" [("units", AttVal.str "hours")]
    (d.map (fun x => x - (hourOfDay dateo : Int)))

/-! ## Axis remapper (lines 188-253) -/

/-- Warning text for a momentum level-count mismatch (line 236). -/
def wrongMomentumMsg : String := "Wrong number of momentum levels found in the data."

/-- Warning text for a thermodynamic level-count mismatch (line 241). -/
def wrongThermoMsg : String := "Wrong number of thermodynamic levels found in the data."

/-- Warning text for an unidentified vertical coordinate (line 243). -/
def unableMsg (name : String) : String :=
  "Unable to find the vertical coordinates for " ++ name ++ "."

/-- Warning text for a multi-origin squash request (line 267). -/
def multiOriginMsg : String :=
  "Cannot use datev for timeseries data with multiple dates of origin."

/-- Configuration and extractor results consumed by the remapper: the
configured momentum/thermodynamic variable-name lists, and the arena
indices of the forecast, momentum, and thermodynamic axes when the
corresponding auxiliary records were found. -/
structure Config where
  momentumVars : List String
  thermoVars : List String
  forecastAxis : Option Nat
  momentum : Option Nat
  thermo : Option Nat
deriving DecidableEq, Repr

/-- Number of station rows of a station coordinate (`station.shape[0]`). -/
def rowCount (c : Coord) : Nat :=
  match c.data with
  | CoordData.chars rows => rows.length
  | _ => 0

/-- First pass (lines 190-195): for `typvar == 'T'` / `grtyp == 'Y'`
variables, replace the generic `i` axis by the station dimension when the
lengths agree. -/
def passYVar (h : Heap) (station : Option Nat) (v : Var) : Var :=
  if isTypvarT v && isGrtypY v then
    match findIdxP (fun d => d = "i") (v.dims h), station with
    | some iidx, some stId =>
      if h.axLen (v.axes.getD iidx 0) = rowCount (h.coords.getD stId dCoord) then
        { v with axes := v.axes.set iidx ((h.coords.getD stId dCoord).axes.getD 0 0) }
      else v
    | _, _ => v
  else v

/-- First pass over the variable list. -/
def passYList (h : Heap) (station : Option Nat) (vs : List Var) : List Var :=
  vs.map (passYVar h station)

/-- Second pass (lines 197-204): for `'T'`/`'+'` variables, drop the
degenerate `level` axis coming from the zeroed `ip1`, squeezing the
`record_id` array at the same position. -/
def passLevelVar (h : Heap) (v : Var) : Var :=
  if isTypvarT v && isGrtypPlus v then
    match findIdxP (fun d => d = "level") (v.dims h) with
    | some idx =>
      { v with recShape := v.recShape.eraseIdx idx, axes := v.axes.eraseIdx idx }
    | none => v
  else v

/-- Second pass over the variable list. -/
def passLevelList (h : Heap) (vs : List Var) : List Var :=
  vs.map (passLevelVar h)

/-- Remapper state: the arena, the `known_levels` cache (level count to
cached dimension index, line 208), and the warnings emitted so far. -/
structure MkState where
  heap : Heap
  knownLevels : List (Nat × Nat)
  warnings : List String
deriving DecidableEq, Repr

/-- Lines 217-219: the generic `j` axis of a profile variable becomes the
forecast axis when the lengths agree. -/
def remapJ (cfg : Config) (h : Heap) (v : Var) : Var :=
  match findIdxP (fun d => d = "j") (v.dims h), cfg.forecastAxis with
  | some jidx, some fa =>
    if h.axLen (v.axes.getD jidx 0) = h.axLen fa then
      { v with axes := v.axes.set jidx fa }
    else v
  | _, _ => v

/-- Lines 232-236: the momentum-level check.  Only applies when the
variable name is configured and the momentum axis was extracted; a length
match substitutes the momentum axis, a mismatch warns. -/
def momCheck (cfg : Config) (h : Heap) (name : String) (iId : Nat) : Nat × List String :=
  match cfg.momentum with
  | some mId =>
    if name ∈ cfg.momentumVars then
      if h.axLen iId = h.axLen mId then (mId, [])
      else (iId, [wrongMomentumMsg])
    else (iId, [])
  | none => (iId, [])

/-- Lines 237-241: the thermodynamic-level check, running after (and on the
result of) the momentum check. -/
def thermoCheck (cfg : Config) (h : Heap) (name : String) (prev : Nat × List String) :
    Nat × List String :=
  match cfg.thermo with
  | some tId =>
    if name ∈ cfg.thermoVars then
      if h.axLen prev.1 = h.axLen tId then (tId, prev.2)
      else (prev.1, prev.2 ++ [wrongThermoMsg])
    else prev
  | none => prev

/-- Lines 229-253 (the non-degenerate case of the `i` remapping): the axis
object `iId` is renamed `level` in place, the momentum and thermodynamic
checks run in order, and the surviving choice either replaces the entry at
`popIdx` (with the vertical kind recorded) or falls back to the cached
generic `level` dimension with a warning. -/
def remapIElse (cfg : Config) (s : MkState) (popIdx : Nat) (v : Var) (iId : Nat) :
    MkState × Var :=
  let heap1 := s.heap.renameAxis iId "level"
  let momStep := momCheck cfg heap1 v.name iId
  let thStep := thermoCheck cfg heap1 v.name momStep
  if thStep.1 = iId then
    let nlev := heap1.axLen iId
    match alookup s.knownLevels nlev with
    | some cached =>
      ({ heap := heap1, knownLevels := s.knownLevels,
         warnings := s.warnings ++ thStep.2 ++ [unableMsg v.name] },
       { v with axes := v.axes.set popIdx cached })
    | none =>
      let alloc := heap1.allocAxis (dimType "level" nlev)
      ({ heap := alloc.1, knownLevels := s.knownLevels ++ [(nlev, alloc.2)],
         warnings := s.warnings ++ thStep.2 ++ [unableMsg v.name] },
       { v with axes := v.axes.set popIdx alloc.2 })
  else
    ({ heap := heap1, knownLevels := s.knownLevels,
       warnings := s.warnings ++ thStep.2 },
     { v with atts := setAtt v.atts "kind" (AttVal.int 5),
              axes := v.axes.set popIdx thStep.1 })

/-- Lines 223-253: reinterpretation of the generic `i` axis of a profile
variable as the vertical level.  `staleI` is `dims.index('i')` computed
from the dims list captured at line 214, before the `j` replacement, as in
the source.  A length-1 axis is dropped; otherwise `remapIElse` runs. -/
def remapI (cfg : Config) (s : MkState) (staleI : Option Nat) (v : Var) : MkState × Var :=
  match findIdxP (fun d => d = "i") (v.dims s.heap) with
  | none => (s, v)
  | some ifresh =>
    let iId := v.axes.getD ifresh 0
    let popIdx := staleI.getD 0
    if s.heap.axLen iId = 1 then
      (s, { v with axes := v.axes.eraseIdx popIdx })
    else
      remapIElse cfg s popIdx v iId

/-- Third pass, one variable (lines 209-253): profile variables only; the
stale `dims` list is captured before the `j` replacement as in the
source. -/
def passPlusVar (cfg : Config) (s : MkState) (v : Var) : MkState × Var :=
  if isTypvarT v && isGrtypPlus v then
    let staleI := findIdxP (fun d => d = "i") (v.dims s.heap)
    remapI cfg s staleI (remapJ cfg s.heap v)
  else (s, v)

/-- Third pass over the variable list, threading the remapper state. -/
def passPlusList (cfg : Config) (s : MkState) : List Var → MkState × List Var
  | [] => (s, [])
  | v :: rest =>
    let sv := passPlusVar cfg s v
    let rest2 := passPlusList cfg sv.1 rest
    (rest2.1, sv.2 :: rest2.2)

/-! ## Forecast-squash post-processor (lines 255-289) -/

/-- Attributes of the squashed time axis (line 279). -/
def timeAtts : List (String × AttVal) :=
  [("standard_name", AttVal.str "time"), ("long_name", AttVal.str "Validity time"),
   ("axis", AttVal.str "T")]

/-- Attributes of the `leadtime` auxiliary coordinate (line 283). -/
def leadtimeAtts : List (String × AttVal) :=
  [("standard_name", AttVal.str "forecast_period"),
   ("long_name", AttVal.str "Lead time (since forecast_reference_time)"),
   ("units", AttVal.str "hours")]

/-- Attributes of the `reftime` auxiliary coordinate (line 284). -/
def reftimeAtts : List (String × AttVal) :=
  [("standard_name", AttVal.str "forecast_reference_time")]

/-- Squash state: the arena, the three per-key caches
(`known_squashed_forecasts`, `known_leadtimes`, `known_reftimes`, lines
257-259, keyed by the identity pair `(id(time), id(forecast))` = the pair
of arena indices) and the warnings. -/
structure SqState where
  heap : Heap
  knownSquashed : List ((Nat × Nat) × Nat)
  knownLeadtimes : List ((Nat × Nat) × Nat)
  knownReftimes : List ((Nat × Nat) × Nat)
  warnings : List String
deriving DecidableEq, Repr

/-- Lines 273-286: one-time creation of the squashed time axis (origin
time plus forecast hours as seconds) and of the `leadtime` / `reftime`
auxiliary coordinates for a given `(time, forecast)` identity key. -/
def squashCreate (st : SqState) (timeId fcId : Nat) : SqState :=
  let time0 := (st.heap.axVals timeId).getD 0 0
  let hrs := st.heap.axVals fcId
  let squashedVals := hrs.map (fun x => time0 + x * 3600)
  let a1 := st.heap.allocAxis (axisType "time" timeAtts squashedVals)
  let c1 := a1.1.allocCoord
    { name := "leadtime", atts := leadtimeAtts, axes := [a1.2],
      data := CoordData.hours hrs }
  let c2 := c1.1.allocCoord
    { name := "reftime", atts := reftimeAtts, axes := [],
      data := CoordData.scalarTime time0 }
  { heap := c2.1,
    knownSquashed := st.knownSquashed ++ [((timeId, fcId), a1.2)],
    knownLeadtimes := st.knownLeadtimes ++ [((timeId, fcId), c1.2)],
    knownReftimes := st.knownReftimes ++ [((timeId, fcId), c2.2)],
    warnings := st.warnings }

/-- Lines 269-289 (single-origin case): drop the time dimension (squeezing
`record_id`), look up or create the squashed axis and coordinates for the
identity key, replace the forecast entry (recomputing its position in the
shrunken dims list, as `var.dims.index('forecast')` does after the pop),
and append `leadtime` / `reftime` to the dependency list. -/
def squashVarTail (st : SqState) (v : Var) (tidx fidx : Nat) : SqState × Var :=
  let v1 : Var := { v with recShape := v.recShape.eraseIdx tidx,
                           axes := v.axes.eraseIdx tidx }
  let key := (v.axes.getD tidx 0, v.axes.getD fidx 0)
  let st1 :=
    match alookup st.knownSquashed key with
    | some _ => st
    | none => squashCreate st (v.axes.getD tidx 0) (v.axes.getD fidx 0)
  let fidx1 := (findIdxP (fun d => d = "forecast") (v1.dims st1.heap)).getD 0
  (st1, { v1 with axes := v1.axes.set fidx1 ((alookup st1.knownSquashed key).getD 0),
                  deps := v1.deps ++ [(alookup st1.knownLeadtimes key).getD 0,
                                      (alookup st1.knownReftimes key).getD 0] })

/-- Lines 266-289 once both axes are present: a multi-valued time axis
warns and skips the variable; otherwise the squash runs. -/
def squashVarGo (st : SqState) (v : Var) (tidx fidx : Nat) : SqState × Var :=
  if st.heap.axLen (v.axes.getD tidx 0) ≠ 1 then
    ({ st with warnings := st.warnings ++ [multiOriginMsg] }, v)
  else
    squashVarTail st v tidx fidx

/-- Squash of one variable (lines 260-289): requires both a `time` and a
`forecast` axis, then runs the guarded squash body. -/
def squashVar (st : SqState) (v : Var) : SqState × Var :=
  match findIdxP (fun d => d = "time") (v.dims st.heap),
        findIdxP (fun d => d = "forecast") (v.dims st.heap) with
  | some tidx, some fidx => squashVarGo st v tidx fidx
  | _, _ => (st, v)

/-- Squash pass over the variable list, threading the squash state. -/
def squashList (st : SqState) : List Var → SqState × List Var
  | [] => (st, [])
  | v :: rest =>
    let sv := squashVar st v
    let rest2 := squashList sv.1 rest
    (rest2.1, sv.2 :: rest2.2)

/-- The guarded squash pass (`if getattr(self,'_squash_forecasts',False) is
True`, line 256). -/
def squashPass (enabled : Bool) (st : SqState) (vs : List Var) : SqState × List Var :=
  if enabled then squashList st vs else (st, vs)

/-! ## Station coordinate binder (lines 291-313) -/

/-- Station rows of a station coordinate (the 2-D character array, one
string per station). -/
def stationRows (c : Coord) : List String :=
  match c.data with
  | CoordData.chars rows => rows
  | _ => []

/-- numpy row indexing `array[i,:]` with negative-index wrap-around. -/
def npRow (rows : List String) (i : Int) : String :=
  if 0 ≤ i then rows.getD i.toNat "" else rows.getD (rows.length - (-i).toNat) ""

/-- One group of the station binder (lines 294-313); the grouping itself
(`self._iter_axes('station_id', varlist=True)`) is modelled from the spec
as iterating the distinct `station_id` axis objects with the variables
carrying them.  A group whose axis length matches the canonical station
count is rebound to the canonical axis and coordinate; otherwise a subset
coordinate is built by 1-based index selection and only appended as a
dependency. -/
def bindStationGroup (h : Heap) (stationId : Nat) (gAxisId : Nat) (vars : List Var) :
    Heap × List Var :=
  let station := h.coords.getD stationId dCoord
  if h.axLen gAxisId = (stationRows station).length then
    let vars1 := vars.map (fun v =>
      let sidx := (findIdxP (fun d => d = "station_id") (v.dims h)).getD 0
      { v with axes := v.axes.set sidx (station.axes.getD 0 0) })
    (h, vars1.map (fun v => { v with deps := v.deps ++ [stationId] }))
  else
    let vals := h.axVals gAxisId
    let rows := vals.map (fun x => npRow (stationRows station) (x - 1))
    let a1 := h.allocAxis (axisType "station_id" [] vals)
    let c1 := a1.1.allocCoord
      { name := "station", atts := [], axes := [a1.2, station.axes.getD 1 0],
        data := CoordData.chars rows }
    (c1.1, vars.map (fun v => { v with deps := v.deps ++ [c1.2] }))

/-! ## Claim theorems -/

/-- C1: after classifier construction, a record with type code `'T '` and
grid code `'+'` gets `station_id` equal to its `ip3` field cast to a
signed 32-bit value, unmasked; every other record's `station_id` entry is
masked. -/
theorem claimC1_station_id (r : RawRecord) :
    (r.typvar = "T " ∧ r.grtyp = "+" →
      (classifyRecord r).station_id.mask = false ∧
      (classifyRecord r).station_id.val = toInt32 r.ip3) ∧
    (¬ (r.typvar = "T " ∧ r.grtyp = "+") →
      (classifyRecord r).station_id.mask = true) := by
  constructor
  · rintro ⟨h1, h2⟩
    simp [classifyRecord, isSplitSeries, h1, h2]
  · intro h
    by_cases h1 : r.typvar = "T "
    · by_cases h2 : r.grtyp = "+"
      · exact absurd ⟨h1, h2⟩ h
      · simp [classifyRecord, isSplitSeries, h1, h2]
    · simp [classifyRecord, isSplitSeries, h1]

/-- A split-series record with an `ip3` value whose signed 32-bit cast is
negative, exercising C1. -/
def c1rec : RawRecord :=
  { typvar := "T ", grtyp := "+", ip1 := 7, ip3 := 4294967295,
    ig1 := 1, ig2 := 2, ig3 := 3, ig4 := 4,
    leadtime := none, reftime := none }

/-- Witness for C1 at a concrete split-series record. -/
theorem claimC1_witness :
    (classifyRecord c1rec).station_id.mask = false ∧
    (classifyRecord c1rec).station_id.val = toInt32 c1rec.ip3 :=
  (claimC1_station_id c1rec).1 (by constructor <;> rfl)

/-- C2: for every record classified series (type `'T '`, grid in
`{+, Y, T}`), the classifier masks the `leadtime` and `reftime` columns
(when present) and zeroes `ig1`-`ig4` and `ip1`; a record failing the
series predicate passes through with all these fields unmodified. -/
theorem claimC2_series_fields (r : RawRecord) :
    (isSeries r = true →
      (∀ m, (classifyRecord r).leadtime = some m → m.mask = true) ∧
      (∀ m, (classifyRecord r).reftime = some m → m.mask = true) ∧
      (classifyRecord r).ig1 = 0 ∧ (classifyRecord r).ig2 = 0 ∧
      (classifyRecord r).ig3 = 0 ∧ (classifyRecord r).ig4 = 0 ∧
      (classifyRecord r).ip1 = 0) ∧
    (isSeries r = false →
      (classifyRecord r).leadtime = r.leadtime ∧
      (classifyRecord r).reftime = r.reftime ∧
      (classifyRecord r).ig1 = r.ig1 ∧ (classifyRecord r).ig2 = r.ig2 ∧
      (classifyRecord r).ig3 = r.ig3 ∧ (classifyRecord r).ig4 = r.ig4 ∧
      (classifyRecord r).ip1 = r.ip1) := by
  constructor
  · intro h
    refine ⟨?_, ?_, ?_, ?_, ?_, ?_, ?_⟩
    · intro m hm
      cases hr : r.leadtime with
      | none => simp [classifyRecord, hr] at hm
      | some m0 =>
        simp [classifyRecord, hr, h] at hm
        simp [← hm]
    · intro m hm
      cases hr : r.reftime with
      | none => simp [classifyRecord, hr] at hm
      | some m0 =>
        simp [classifyRecord, hr, h] at hm
        simp [← hm]
    all_goals simp [classifyRecord, h]
  · intro h
    refine ⟨?_, ?_, ?_, ?_, ?_, ?_, ?_⟩
    · cases hr : r.leadtime with
      | none => simp [classifyRecord, hr]
      | some m0 => simp [classifyRecord, hr, h]
    · cases hr : r.reftime with
      | none => simp [classifyRecord, hr]
      | some m0 => simp [classifyRecord, hr, h]
    all_goals simp [classifyRecord, h]

/-- A `'Y'`-grid series record with unmasked leadtime/reftime and nonzero
grid identifiers, exercising C2. -/
def c2rec : RawRecord :=
  { typvar := "T ", grtyp := "Y", ip1 := 7, ip3 := 5,
    ig1 := 11, ig2 := 12, ig3 := 13, ig4 := 14,
    leadtime := some { val := 9, mask := false },
    reftime := some { val := 8, mask := false } }

/-- Witness for C2 at a concrete series record: the grid identifiers and
`ip1` read zero and the masked leadtime entry is masked. -/
theorem claimC2_witness :
    (classifyRecord c2rec).ig1 = 0 ∧ (classifyRecord c2rec).ig2 = 0 ∧
    (classifyRecord c2rec).ig3 = 0 ∧ (classifyRecord c2rec).ig4 = 0 ∧
    (classifyRecord c2rec).ip1 = 0 ∧
    (classifyRecord c2rec).leadtime = some { val := 9, mask := true } := by
  have h := (claimC2_series_fields c2rec).1 (by decide)
  refine ⟨h.2.2.1, h.2.2.2.1, h.2.2.2.2.1, h.2.2.2.2.2.1, h.2.2.2.2.2.2, ?_⟩
  decide

theorem set_oob {α : Type} (l : List α) (i : Nat) (b : α) (h : l.length ≤ i) :
    l.set i b = l := by
  induction l generalizing i with
  | nil => simp
  | cons x xs ih =>
    cases i with
    | zero => simp only [List.length_cons] at h; omega
    | succ i0 =>
      have h2 : xs.length ≤ i0 := by
        simp only [List.length_cons] at h
        omega
      simp [ih i0 h2]

theorem getD_oob {α : Type} (l : List α) (i : Nat) (d : α) (h : l.length ≤ i) :
    l.getD i d = d := by
  induction l generalizing i with
  | nil => simp
  | cons x xs ih =>
    cases i with
    | zero => simp only [List.length_cons] at h; omega
    | succ i0 =>
      have h2 : xs.length ≤ i0 := by
        simp only [List.length_cons] at h
        omega
      simpa using ih i0 h2

theorem getD_mem {α : Type} (l : List α) (m : Nat) (d : α) (h : m < l.length) :
    l.getD m d ∈ l := by
  induction l generalizing m with
  | nil => simp at h
  | cons x xs ih =>
    cases m with
    | zero => simp
    | succ m0 =>
      have := ih m0 (by simpa using Nat.lt_of_succ_lt_succ h)
      simpa using Or.inr this

theorem length_rename (h : Heap) (i : Nat) (nm : String) :
    (h.renameAxis i nm).axes.length = h.axes.length := by
  simp [Heap.renameAxis]

theorem getD_rename_ne (h : Heap) (i j : Nat) (nm : String) (hij : i ≠ j) :
    (h.renameAxis i nm).axes.getD j dAx = h.axes.getD j dAx := by
  unfold Heap.renameAxis
  exact getD_set_ne _ _ _ _ _ hij

theorem axName_rename_ne (h : Heap) (i j : Nat) (nm : String) (hij : i ≠ j) :
    (h.renameAxis i nm).axName j = h.axName j := by
  unfold Heap.axName
  rw [getD_rename_ne h i j nm hij]

theorem axLen_rename (h : Heap) (i j : Nat) (nm : String) :
    (h.renameAxis i nm).axLen j = h.axLen j := by
  unfold Heap.axLen
  by_cases hij : i = j
  · subst hij
    by_cases hr : i < h.axes.length
    · have he : (h.renameAxis i nm).axes.getD i dAx =
          { h.axes.getD i dAx with name := nm } := by
        unfold Heap.renameAxis
        exact getD_set_self _ _ _ _ hr
      rw [he]
      rfl
    · have he : (h.renameAxis i nm).axes = h.axes := by
        unfold Heap.renameAxis
        exact set_oob _ _ _ (Nat.le_of_not_lt hr)
      rw [he]
  · rw [getD_rename_ne h i j nm hij]

theorem getD_alloc_lt (h : Heap) (a : Axis) (j : Nat) (hj : j < h.axes.length) :
    (h.allocAxis a).1.axes.getD j dAx = h.axes.getD j dAx := by
  unfold Heap.allocAxis
  exact getD_append_lt _ _ _ _ hj

theorem getD_alloc_self (h : Heap) (a : Axis) :
    (h.allocAxis a).1.axes.getD h.axes.length dAx = a := by
  unfold Heap.allocAxis
  exact getD_append_self _ _ _

theorem length_alloc (h : Heap) (a : Axis) :
    (h.allocAxis a).1.axes.length = h.axes.length + 1 := by
  simp [Heap.allocAxis]

/-- Entries strictly below the old length survive the rename-then-allocate
heap step of the fallback path untouched, provided they are not the renamed
axis itself. -/
theorem heap_step_getD (h0 : Heap) (iId : Nat) (a : Axis) (j : Nat)
    (hj : j < h0.axes.length) (hne : j ≠ iId) :
    (((h0.renameAxis iId "level").allocAxis a).1).axes.getD j dAx =
      h0.axes.getD j dAx := by
  rw [getD_alloc_lt _ _ _ (by rw [length_rename]; exact hj)]
  exact getD_rename_ne _ _ _ _ (fun hc => hne hc.symm)

/-- Axis lengths below the old heap length survive the rename-then-allocate
step (the rename touches only the name). -/
theorem heap_step_axLen (h0 : Heap) (iId : Nat) (a : Axis) (j : Nat)
    (hj : j < h0.axes.length) :
    (((h0.renameAxis iId "level").allocAxis a).1).axLen j =
      h0.axLen j := by
  have h1 : (((h0.renameAxis iId "level").allocAxis a).1).axLen j =
      (h0.renameAxis iId "level").axLen j := by
    unfold Heap.axLen
    rw [getD_alloc_lt _ _ _ (by rw [length_rename]; exact hj)]
  rw [h1, axLen_rename]

/-- The `dims` list only depends on the names of the referenced axis objects. -/
theorem dims_congr (v : Var) (h1 h2 : Heap)
    (hc : ∀ id, id ∈ v.axes → h1.axName id = h2.axName id) :
    v.dims h1 = v.dims h2 := by
  unfold Var.dims
  exact List.map_congr_left hc

theorem getAtt_setAtt (atts : List (String × AttVal)) (k : String) (val : AttVal) :
    getAtt (setAtt atts k val) k = some val := by
  induction atts with
  | nil => simp [setAtt, getAtt, alookup]
  | cons p rest ih =>
    obtain ⟨k0, v0⟩ := p
    by_cases hk : k0 = k
    · simp [setAtt, hk, getAtt, alookup]
    · simp only [setAtt, if_neg hk]
      simpa [getAtt, alookup, hk] using ih

/-- The momentum check is a no-op when the variable name is not
configured. -/
theorem momCheck_skip (cfg : Config) (h : Heap) (name : String) (iId : Nat)
    (hn : ¬ name ∈ cfg.momentumVars) : momCheck cfg h name iId = (iId, []) := by
  cases hm : cfg.momentum <;> simp [momCheck, hm, hn]

/-- The thermodynamic check is a no-op when the variable name is not
configured. -/
theorem thermoCheck_skip (cfg : Config) (h : Heap) (name : String)
    (prev : Nat × List String) (hn : ¬ name ∈ cfg.thermoVars) :
    thermoCheck cfg h name prev = prev := by
  cases ht : cfg.thermo <;> simp [thermoCheck, ht, hn]

/-- The momentum check substitutes the momentum axis on a configured name
with matching lengths. -/
theorem momCheck_subst (cfg : Config) (h : Heap) (name : String) (iId mId : Nat)
    (hm : cfg.momentum = some mId) (hin : name ∈ cfg.momentumVars)
    (hl : h.axLen iId = h.axLen mId) :
    momCheck cfg h name iId = (mId, []) := by
  simp [momCheck, hm, hin, hl]

/-- The thermodynamic check substitutes the thermodynamic axis on a
configured name with matching lengths, overriding its input. -/
theorem thermoCheck_subst (cfg : Config) (h : Heap) (name : String)
    (prev : Nat × List String) (tId : Nat)
    (ht : cfg.thermo = some tId) (hin : name ∈ cfg.thermoVars)
    (hl : h.axLen prev.1 = h.axLen tId) :
    thermoCheck cfg h name prev = (tId, prev.2) := by
  simp [thermoCheck, ht, hin, hl]

/-- Reduction of `remapI` once the fresh `i` position is known. -/
theorem remapI_reduce (cfg : Config) (s : MkState) (stale : Option Nat) (vJ : Var)
    (k : Nat) (hfi : findIdxP (fun d => d = "i") (vJ.dims s.heap) = some k) :
    remapI cfg s stale vJ =
      if s.heap.axLen (vJ.axes.getD k 0) = 1 then
        (s, { vJ with axes := vJ.axes.eraseIdx (stale.getD 0) })
      else
        remapIElse cfg s (stale.getD 0) vJ (vJ.axes.getD k 0) := by
  rw [remapI, hfi]

/-- The fallback path of the `i` remapping on a cache miss: the `i` axis
object is renamed in place, a fresh generic `level` dimension is allocated
and cached, the variable's `i` entry is replaced by it, and the
unidentified-vertical-coordinate warning is recorded. -/
theorem remapI_fallback_fresh (cfg : Config) (s : MkState) (vJ : Var) (k : Nat)
    (stale : Option Nat)
    (hfi : findIdxP (fun d => d = "i") (vJ.dims s.heap) = some k)
    (hone : ¬ s.heap.axLen (vJ.axes.getD k 0) = 1)
    (hmom : ¬ vJ.name ∈ cfg.momentumVars)
    (hth : ¬ vJ.name ∈ cfg.thermoVars)
    (hfresh : alookup s.knownLevels (s.heap.axLen (vJ.axes.getD k 0)) = none) :
    remapI cfg s stale vJ =
      ({ heap := ((s.heap.renameAxis (vJ.axes.getD k 0) "level").allocAxis
            (dimType "level" (s.heap.axLen (vJ.axes.getD k 0)))).1,
         knownLevels := s.knownLevels ++
           [(s.heap.axLen (vJ.axes.getD k 0), s.heap.axes.length)],
         warnings := s.warnings ++ [unableMsg vJ.name] },
       { vJ with axes := vJ.axes.set (stale.getD 0) (s.heap.axes.length) }) := by
  have hlr : (s.heap.renameAxis (vJ.axes.getD k 0) "level").axLen (vJ.axes.getD k 0) =
      s.heap.axLen (vJ.axes.getD k 0) := axLen_rename _ _ _ _
  rw [remapI_reduce cfg s stale vJ k hfi, if_neg hone]
  unfold remapIElse
  simp only
  rw [momCheck_skip cfg _ vJ.name _ hmom]
  rw [thermoCheck_skip cfg _ vJ.name _ hth]
  rw [if_pos rfl]
  rw [hlr, hfresh]
  simp [Heap.allocAxis, length_rename]

/-- The fallback path of the `i` remapping on a cache hit: the `i` axis
object is renamed in place, the cached generic `level` dimension is reused
(no allocation), and the warning is recorded. -/
theorem remapI_fallback_cached (cfg : Config) (s : MkState) (vJ : Var) (k : Nat)
    (stale : Option Nat) (c : Nat)
    (hfi : findIdxP (fun d => d = "i") (vJ.dims s.heap) = some k)
    (hone : ¬ s.heap.axLen (vJ.axes.getD k 0) = 1)
    (hmom : ¬ vJ.name ∈ cfg.momentumVars)
    (hth : ¬ vJ.name ∈ cfg.thermoVars)
    (hcached : alookup s.knownLevels (s.heap.axLen (vJ.axes.getD k 0)) = some c) :
    remapI cfg s stale vJ =
      ({ heap := s.heap.renameAxis (vJ.axes.getD k 0) "level",
         knownLevels := s.knownLevels,
         warnings := s.warnings ++ [unableMsg vJ.name] },
       { vJ with axes := vJ.axes.set (stale.getD 0) c }) := by
  have hlr : (s.heap.renameAxis (vJ.axes.getD k 0) "level").axLen (vJ.axes.getD k 0) =
      s.heap.axLen (vJ.axes.getD k 0) := axLen_rename _ _ _ _
  rw [remapI_reduce cfg s stale vJ k hfi, if_neg hone]
  unfold remapIElse
  simp only
  rw [momCheck_skip cfg _ vJ.name _ hmom]
  rw [thermoCheck_skip cfg _ vJ.name _ hth]
  rw [if_pos rfl]
  rw [hlr, hcached]
  simp

/-- The substitution path of the `i` remapping for a variable configured in
both level categories with both lengths matching: the momentum check picks
the momentum axis, the thermodynamic check then overrides it, the entry is
replaced by the thermodynamic axis, the vertical-coordinate kind is set to
5, and no warning is recorded. -/
theorem remapI_subst_both (cfg : Config) (s : MkState) (vJ : Var) (k : Nat)
    (stale : Option Nat) (mId tId : Nat)
    (hfi : findIdxP (fun d => d = "i") (vJ.dims s.heap) = some k)
    (hone : ¬ s.heap.axLen (vJ.axes.getD k 0) = 1)
    (hm : cfg.momentum = some mId) (ht : cfg.thermo = some tId)
    (hinm : vJ.name ∈ cfg.momentumVars) (hint : vJ.name ∈ cfg.thermoVars)
    (hlm : s.heap.axLen mId = s.heap.axLen (vJ.axes.getD k 0))
    (hlt : s.heap.axLen tId = s.heap.axLen (vJ.axes.getD k 0))
    (htne : tId ≠ vJ.axes.getD k 0) :
    remapI cfg s stale vJ =
      ({ heap := s.heap.renameAxis (vJ.axes.getD k 0) "level",
         knownLevels := s.knownLevels,
         warnings := s.warnings },
       { vJ with atts := setAtt vJ.atts "kind" (AttVal.int 5),
                 axes := vJ.axes.set (stale.getD 0) tId }) := by
  rw [remapI_reduce cfg s stale vJ k hfi, if_neg hone]
  unfold remapIElse
  simp only
  rw [momCheck_subst cfg _ vJ.name _ mId hm hinm
    (by rw [axLen_rename, axLen_rename, hlm])]
  rw [thermoCheck_subst cfg _ vJ.name _ tId ht hint
    (by rw [axLen_rename, axLen_rename, hlm, hlt])]
  rw [if_neg (by simpa using htne)]
  simp

/-- Reduction of the third pass on a profile variable. -/
theorem passPlusVar_reduce (cfg : Config) (s : MkState) (v : Var)
    (hT : isTypvarT v = true) (hP : isGrtypPlus v = true) :
    passPlusVar cfg s v =
      remapI cfg s (findIdxP (fun d => d = "i") (v.dims s.heap))
        (remapJ cfg s.heap v) := by
  simp [passPlusVar, hT, hP]

/-- Case split for the `j`-to-forecast replacement (lines 217-219): either
the variable is untouched, or its `j` entry is replaced by the forecast
axis reference. -/
theorem remapJ_cases (cfg : Config) (h : Heap) (v : Var) :
    remapJ cfg h v = v ∨
    ∃ jidx fa, findIdxP (fun d => d = "j") (v.dims h) = some jidx ∧
      cfg.forecastAxis = some fa ∧
      remapJ cfg h v = { v with axes := v.axes.set jidx fa } := by
  cases hj : findIdxP (fun d => d = "j") (v.dims h) with
  | none => left; simp [remapJ, hj]
  | some jidx =>
    cases hfa : cfg.forecastAxis with
    | none => left; simp [remapJ, hj, hfa]
    | some fa =>
      have hun : remapJ cfg h v =
          if h.axLen (v.axes.getD jidx 0) = h.axLen fa then
            { v with axes := v.axes.set jidx fa } else v := by
        unfold remapJ
        rw [hj, hfa]
      by_cases hlen : h.axLen (v.axes.getD jidx 0) = h.axLen fa
      · right
        exact ⟨jidx, fa, rfl, rfl, by rw [hun, if_pos hlen]⟩
      · left
        rw [hun, if_neg hlen]

/-- The `j` replacement does not disturb the `i` axis: when the forecast
axis (if any) is named `forecast`, the first `i` position, the axis entry
there, and all other variable fields survive `remapJ`, and every dims
entry is either unchanged or now reads `forecast`. -/
theorem remapJ_keeps_i (cfg : Config) (h : Heap) (v : Var) (k : Nat)
    (hfa : ∀ fa, cfg.forecastAxis = some fa → h.axName fa = "forecast")
    (hk : findIdxP (fun d => d = "i") (v.dims h) = some k) :
    findIdxP (fun d => d = "i") ((remapJ cfg h v).dims h) = some k ∧
    (remapJ cfg h v).axes.getD k 0 = v.axes.getD k 0 ∧
    (remapJ cfg h v).axes.length = v.axes.length ∧
    (remapJ cfg h v).name = v.name ∧
    (remapJ cfg h v).atts = v.atts ∧
    (remapJ cfg h v).deps = v.deps ∧
    (remapJ cfg h v).recShape = v.recShape ∧
    (∀ m, m < v.axes.length →
      ((remapJ cfg h v).dims h).getD m "" = (v.dims h).getD m "" ∨
      ((remapJ cfg h v).dims h).getD m "" = "forecast") := by
  have hvlen : (v.dims h).length = v.axes.length := by simp [Var.dims]
  rcases remapJ_cases cfg h v with he | ⟨jidx, fa, hj, hcfg, he⟩
  · rw [he]
    exact ⟨hk, rfl, rfl, rfl, rfl, rfl, rfl, fun m _ => Or.inl rfl⟩
  · obtain ⟨hkl, hkp, hkm⟩ := findIdxP_spec (fun d => d = "i") (v.dims h) k "" hk
    obtain ⟨hjl, hjp, _⟩ := findIdxP_spec (fun d => d = "j") (v.dims h) jidx "" hj
    have hki : (v.dims h).getD k "" = "i" := by simpa using hkp
    have hjj : (v.dims h).getD jidx "" = "j" := by simpa using hjp
    have hjk : jidx ≠ k := by
      intro hc
      rw [hc, hki] at hjj
      exact absurd hjj (by decide)
    have hfan : h.axName fa = "forecast" := hfa fa hcfg
    have hdims : ({ v with axes := v.axes.set jidx fa } : Var).dims h =
        (v.dims h).set jidx "forecast" := by
      simp [Var.dims, map_setIdx, hfan]
    rw [he]
    refine ⟨?_, ?_, by simp, rfl, rfl, rfl, rfl, ?_⟩
    · rw [hdims]
      refine findIdxP_eq_some _ _ k "" (by simpa using hkl) ?_ ?_
      · rw [getD_set_ne _ _ _ _ _ hjk]
        simpa using hki
      · intro m hm
        by_cases hmj : jidx = m
        · rw [← hmj, getD_set_self _ _ _ _ hjl]
          decide
        · rw [getD_set_ne _ _ _ _ _ hmj]
          exact hkm m hm
    · simp only
      rw [getD_set_ne _ _ _ _ _ hjk]
    · intro m hm
      rw [hdims]
      by_cases hmj : jidx = m
      · rw [← hmj, getD_set_self _ _ _ _ hjl]
        right; rfl
      · rw [getD_set_ne _ _ _ _ _ hmj]
        left; rfl

/-- C4: a profile variable (`typvar 'T'`, `grtyp '+'`) whose generic `i`
axis has length exactly 1 loses that dimension entirely in the axis
remapper: the result has no `i` and no `level` dimension, and the remapper
state is untouched.  (The preceding pass, lines 197-204, has already
removed any `level` axis of a profile variable, whence the hypothesis that
none is present.) -/
theorem claimC4_degenerate_level (cfg : Config) (s : MkState) (v : Var) (k : Nat)
    (hT : isTypvarT v = true) (hP : isGrtypPlus v = true)
    (hfa : ∀ fa, cfg.forecastAxis = some fa → s.heap.axName fa = "forecast")
    (hk : findIdxP (fun d => d = "i") (v.dims s.heap) = some k)
    (huniq : ∀ m, m < (v.dims s.heap).length → (v.dims s.heap).getD m "" = "i" → m = k)
    (hnl : ¬ "level" ∈ v.dims s.heap)
    (hlen : s.heap.axLen (v.axes.getD k 0) = 1) :
    (passPlusVar cfg s v).1 = s ∧
    ¬ "i" ∈ ((passPlusVar cfg s v).2.dims s.heap) ∧
    ¬ "level" ∈ ((passPlusVar cfg s v).2.dims s.heap) := by
  obtain ⟨hfi, hax, hlen2, _, _, _, _, hdims⟩ := remapJ_keeps_i cfg s.heap v k hfa hk
  have hvlen : (v.dims s.heap).length = v.axes.length := by simp [Var.dims]
  obtain ⟨hkl, hkp, _⟩ := findIdxP_spec (fun d => d = "i") (v.dims s.heap) k "" hk
  have hstep : passPlusVar cfg s v =
      remapI cfg s (some k) (remapJ cfg s.heap v) := by
    simp [passPlusVar, hT, hP, hk]
  have hres : remapI cfg s (some k) (remapJ cfg s.heap v) =
      (s, { remapJ cfg s.heap v with
              axes := (remapJ cfg s.heap v).axes.eraseIdx k }) := by
    rw [remapI, hfi]
    simp only [Option.getD_some]
    rw [hax, if_pos hlen]
  rw [hstep, hres]
  have hJdims : ∀ m, m < v.axes.length →
      ((remapJ cfg s.heap v).dims s.heap).getD m "" ≠ "i" ∨ m = k := by
    intro m hm
    rcases hdims m hm with hsame | hfc
    · by_cases hmi : (v.dims s.heap).getD m "" = "i"
      · right; exact huniq m (by omega) hmi
      · left; rw [hsame]; exact hmi
    · left; rw [hfc]; decide
  have hJlvl : ∀ m, m < v.axes.length →
      ((remapJ cfg s.heap v).dims s.heap).getD m "" ≠ "level" := by
    intro m hm
    rcases hdims m hm with hsame | hfc
    · rw [hsame]
      exact getD_of_not_mem _ _ _ m (by omega) hnl
    · rw [hfc]; decide
  have herase : ({ remapJ cfg s.heap v with
      axes := (remapJ cfg s.heap v).axes.eraseIdx k } : Var).dims s.heap =
      ((remapJ cfg s.heap v).dims s.heap).eraseIdx k := by
    simp [Var.dims, map_eraseIdx]
  have hJlen : ((remapJ cfg s.heap v).dims s.heap).length = v.axes.length := by
    simp [Var.dims, hlen2]
  have hkv : k < v.axes.length := by omega
  refine ⟨rfl, ?_, ?_⟩
  · rw [herase]
    refine not_mem_of_getD_ne _ _ "" ?_
    intro m hm
    rw [length_eraseIdx_lt _ _ (by omega)] at hm
    by_cases hmk : m < k
    · rw [getD_eraseIdx_lt _ _ _ _ hmk]
      rcases hJdims m (by omega) with hne | hek
      · exact hne
      · omega
    · rw [getD_eraseIdx_ge _ _ _ _ (by omega) (by omega)]
      rcases hJdims (m + 1) (by omega) with hne | hek
      · exact hne
      · omega
  · rw [herase]
    refine not_mem_of_getD_ne _ _ "" ?_
    intro m hm
    rw [length_eraseIdx_lt _ _ (by omega)] at hm
    by_cases hmk : m < k
    · rw [getD_eraseIdx_lt _ _ _ _ hmk]
      exact hJlvl m (by omega)
    · rw [getD_eraseIdx_ge _ _ _ _ (by omega) (by omega)]
      exact hJlvl (m + 1) (by omega)

/-- Concrete heap for the C4 witness: a `time` axis and a length-1 `i`
axis. -/
def c4heap : Heap := { axes := [dimType "time" 4, dimType "i" 1], coords := [] }

/-- Empty configuration (no configured level variables, no extracted
axes). -/
def c4cfg : Config :=
  { momentumVars := [], thermoVars := [], forecastAxis := none,
    momentum := none, thermo := none }

/-- Initial remapper state for the C4 witness. -/
def c4s : MkState := { heap := c4heap, knownLevels := [], warnings := [] }

/-- A profile variable with a degenerate (length-1) `i` axis. -/
def c4v : Var :=
  { name := "FC", atts := [("typvar", AttVal.str "T"), ("grtyp", AttVal.str "+")],
    axes := [0, 1], deps := [], recShape := [4] }

/-- Witness for C4 at a concrete profile variable with a length-1 `i`
axis. -/
theorem claimC4_witness :
    (passPlusVar c4cfg c4s c4v).1 = c4s ∧
    ¬ "i" ∈ ((passPlusVar c4cfg c4s c4v).2.dims c4s.heap) ∧
    ¬ "level" ∈ ((passPlusVar c4cfg c4s c4v).2.dims c4s.heap) := by
  refine claimC4_degenerate_level c4cfg c4s c4v 1 (by decide) (by decide) ?_
    (by decide) ?_ (by decide) (by decide)
  · intro fa hfa
    simp [c4cfg] at hfa
  · intro m hm he
    have hl : (c4v.dims c4s.heap).length = 2 := by decide
    rw [hl] at hm
    match m, hm with
    | 0, _ => exact absurd he (by decide)
    | 1, _ => rfl
    | (n + 2), h => omega

/-- C5: two profile variables whose `i` axes (distinct objects, equal
length `n ≠ 1`) are configured in neither level category both fall back to
the generic `level` dimension: both receive the same arena index (reference
sharing through the `known_levels` cache), that index holds an unlabeled
`level` dimension of length `n`, exactly one dimension object is allocated
for the pair, and an unidentified-vertical-coordinate warning is recorded
for each variable. -/
theorem claimC5_generic_level (cfg : Config) (s : MkState) (v1 v2 : Var)
    (k1 k2 n : Nat)
    (hT1 : isTypvarT v1 = true) (hP1 : isGrtypPlus v1 = true)
    (hk1 : findIdxP (fun d => d = "i") (v1.dims s.heap) = some k1)
    (hn1 : s.heap.axLen (v1.axes.getD k1 0) = n)
    (hmom1 : ¬ v1.name ∈ cfg.momentumVars) (hth1 : ¬ v1.name ∈ cfg.thermoVars)
    (hT2 : isTypvarT v2 = true) (hP2 : isGrtypPlus v2 = true)
    (hk2 : findIdxP (fun d => d = "i") (v2.dims s.heap) = some k2)
    (hn2 : s.heap.axLen (v2.axes.getD k2 0) = n)
    (hmom2 : ¬ v2.name ∈ cfg.momentumVars) (hth2 : ¬ v2.name ∈ cfg.thermoVars)
    (hone : n ≠ 1)
    (hfa : ∀ fa, cfg.forecastAxis = some fa → s.heap.axName fa = "forecast")
    (hfresh : alookup s.knownLevels n = none)
    (hdisj : ¬ v1.axes.getD k1 0 ∈ v2.axes)
    (hrange : ∀ id, id ∈ v2.axes → id < s.heap.axes.length) :
    (passPlusVar cfg s v1).2.axes.getD k1 0 = s.heap.axes.length ∧
    (passPlusVar cfg (passPlusVar cfg s v1).1 v2).2.axes.getD k2 0 =
      s.heap.axes.length ∧
    (passPlusVar cfg (passPlusVar cfg s v1).1 v2).1.heap.axes.getD
      s.heap.axes.length dAx = dimType "level" n ∧
    (passPlusVar cfg (passPlusVar cfg s v1).1 v2).1.heap.axes.length =
      s.heap.axes.length + 1 ∧
    (passPlusVar cfg (passPlusVar cfg s v1).1 v2).1.warnings =
      s.warnings ++ [unableMsg v1.name, unableMsg v2.name] ∧
    passPlusList cfg s [v1, v2] =
      ((passPlusVar cfg (passPlusVar cfg s v1).1 v2).1,
       [(passPlusVar cfg s v1).2,
        (passPlusVar cfg (passPlusVar cfg s v1).1 v2).2]) := by
  obtain ⟨hfi1, hax1, hlenJ1, hname1, _, _, _, _⟩ :=
    remapJ_keeps_i cfg s.heap v1 k1 hfa hk1
  obtain ⟨hkl1, hkp1, _⟩ := findIdxP_spec (fun d => d = "i") (v1.dims s.heap) k1 "" hk1
  obtain ⟨hkl2, hkp2, _⟩ := findIdxP_spec (fun d => d = "i") (v2.dims s.heap) k2 "" hk2
  have hvl1 : (v1.dims s.heap).length = v1.axes.length := by simp [Var.dims]
  have hvl2 : (v2.dims s.heap).length = v2.axes.length := by simp [Var.dims]
  have hni : s.heap.axName (v1.axes.getD k1 0) = "i" := by
    have h1 : (v1.dims s.heap).getD k1 "" = "i" := by simpa using hkp1
    have h2 : (v1.dims s.heap).getD k1 "" = s.heap.axName (v1.axes.getD k1 0) := by
      unfold Var.dims
      exact getD_map_lt s.heap.axName v1.axes k1 0 "" (by omega)
    rw [h2] at h1
    exact h1
  -- first variable: fresh fallback
  have hone1 : ¬ s.heap.axLen ((remapJ cfg s.heap v1).axes.getD k1 0) = 1 := by
    rw [hax1, hn1]; exact hone
  have hfresh1 : alookup s.knownLevels
      (s.heap.axLen ((remapJ cfg s.heap v1).axes.getD k1 0)) = none := by
    rw [hax1, hn1]; exact hfresh
  have hmomJ1 : ¬ (remapJ cfg s.heap v1).name ∈ cfg.momentumVars := by
    rw [hname1]; exact hmom1
  have hthJ1 : ¬ (remapJ cfg s.heap v1).name ∈ cfg.thermoVars := by
    rw [hname1]; exact hth1
  have hres1 := remapI_fallback_fresh cfg s (remapJ cfg s.heap v1) k1 (some k1)
    hfi1 hone1 hmomJ1 hthJ1 hfresh1
  rw [hax1, hn1] at hres1
  have hstep1 : passPlusVar cfg s v1 =
      ({ heap := ((s.heap.renameAxis (v1.axes.getD k1 0) "level").allocAxis
            (dimType "level" n)).1,
         knownLevels := s.knownLevels ++ [(n, s.heap.axes.length)],
         warnings := s.warnings ++ [unableMsg v1.name] },
       { remapJ cfg s.heap v1 with
           axes := (remapJ cfg s.heap v1).axes.set k1 s.heap.axes.length }) := by
    rw [passPlusVar_reduce cfg s v1 hT1 hP1, hk1, hres1]
    simp [hname1]
  have hfst1 : (passPlusVar cfg s v1).1 =
      { heap := ((s.heap.renameAxis (v1.axes.getD k1 0) "level").allocAxis
            (dimType "level" n)).1,
        knownLevels := s.knownLevels ++ [(n, s.heap.axes.length)],
        warnings := s.warnings ++ [unableMsg v1.name] } := by rw [hstep1]
  have hsnd1 : (passPlusVar cfg s v1).2 =
      { remapJ cfg s.heap v1 with
          axes := (remapJ cfg s.heap v1).axes.set k1 s.heap.axes.length } := by
    rw [hstep1]
  -- facts about the intermediate state
  have hS1len : (passPlusVar cfg s v1).1.heap.axes.length = s.heap.axes.length + 1 := by
    rw [hfst1]
    simp only
    rw [length_alloc, length_rename]
  have hS1new : (passPlusVar cfg s v1).1.heap.axes.getD s.heap.axes.length dAx =
      dimType "level" n := by
    rw [hfst1]
    simp only
    have he := getD_alloc_self (s.heap.renameAxis (v1.axes.getD k1 0) "level")
      (dimType "level" n)
    rw [length_rename] at he
    exact he
  have hS1pres : ∀ id, id ∈ v2.axes →
      (passPlusVar cfg s v1).1.heap.axes.getD id dAx = s.heap.axes.getD id dAx := by
    intro id hid
    rw [hfst1]
    simp only
    refine heap_step_getD s.heap (v1.axes.getD k1 0) _ id (hrange id hid) ?_
    intro hc
    exact hdisj (hc ▸ hid)
  have hS1name : ∀ id, id ∈ v2.axes →
      (passPlusVar cfg s v1).1.heap.axName id = s.heap.axName id := by
    intro id hid
    unfold Heap.axName
    rw [hS1pres id hid]
  have hdims2 : v2.dims (passPlusVar cfg s v1).1.heap = v2.dims s.heap :=
    dims_congr v2 _ _ hS1name
  have hk2t : findIdxP (fun d => d = "i") (v2.dims (passPlusVar cfg s v1).1.heap) =
      some k2 := by rw [hdims2]; exact hk2
  have hid2mem : v2.axes.getD k2 0 ∈ v2.axes := getD_mem _ _ _ (by omega)
  have hlen2t : (passPlusVar cfg s v1).1.heap.axLen (v2.axes.getD k2 0) = n := by
    unfold Heap.axLen
    rw [hS1pres _ hid2mem]
    exact hn2
  have hfat : ∀ fa, cfg.forecastAxis = some fa →
      (passPlusVar cfg s v1).1.heap.axName fa = "forecast" := by
    intro fa hcfg
    have h0 := hfa fa hcfg
    have hfr : fa < s.heap.axes.length := by
      by_contra hge
      unfold Heap.axName at h0
      rw [getD_oob _ _ _ (by omega)] at h0
      exact absurd h0 (by decide)
    have hne : fa ≠ v1.axes.getD k1 0 := by
      intro hc
      rw [hc, hni] at h0
      exact absurd h0 (by decide)
    rw [hfst1]
    unfold Heap.axName
    simp only
    rw [heap_step_getD s.heap (v1.axes.getD k1 0) _ fa hfr hne]
    exact h0
  -- second variable: cached fallback in the intermediate state
  obtain ⟨hfi2, hax2, hlenJ2, hname2, _, _, _, _⟩ :=
    remapJ_keeps_i cfg (passPlusVar cfg s v1).1.heap v2 k2 hfat hk2t
  have hone2 : ¬ (passPlusVar cfg s v1).1.heap.axLen
      ((remapJ cfg (passPlusVar cfg s v1).1.heap v2).axes.getD k2 0) = 1 := by
    rw [hax2, hlen2t]; exact hone
  have hcached2 : alookup (passPlusVar cfg s v1).1.knownLevels
      ((passPlusVar cfg s v1).1.heap.axLen
        ((remapJ cfg (passPlusVar cfg s v1).1.heap v2).axes.getD k2 0)) =
      some s.heap.axes.length := by
    rw [hax2, hlen2t, hfst1]
    simp only
    exact alookup_append_single s.knownLevels n _ hfresh
  have hmomJ2 : ¬ (remapJ cfg (passPlusVar cfg s v1).1.heap v2).name ∈
      cfg.momentumVars := by rw [hname2]; exact hmom2
  have hthJ2 : ¬ (remapJ cfg (passPlusVar cfg s v1).1.heap v2).name ∈
      cfg.thermoVars := by rw [hname2]; exact hth2
  have hres2 := remapI_fallback_cached cfg (passPlusVar cfg s v1).1
    (remapJ cfg (passPlusVar cfg s v1).1.heap v2) k2 (some k2) s.heap.axes.length
    hfi2 hone2 hmomJ2 hthJ2 hcached2
  rw [hax2] at hres2
  have hstep2 : passPlusVar cfg (passPlusVar cfg s v1).1 v2 =
      ({ heap := (passPlusVar cfg s v1).1.heap.renameAxis (v2.axes.getD k2 0) "level",
         knownLevels := (passPlusVar cfg s v1).1.knownLevels,
         warnings := (passPlusVar cfg s v1).1.warnings ++ [unableMsg v2.name] },
       { remapJ cfg (passPlusVar cfg s v1).1.heap v2 with
           axes := (remapJ cfg (passPlusVar cfg s v1).1.heap v2).axes.set k2
             s.heap.axes.length }) := by
    rw [passPlusVar_reduce cfg (passPlusVar cfg s v1).1 v2 hT2 hP2, hk2t, hres2]
    simp [hname2]
  have hid2lt : v2.axes.getD k2 0 < s.heap.axes.length := hrange _ hid2mem
  refine ⟨?_, ?_, ?_, ?_, ?_, rfl⟩
  · rw [hsnd1]
    simp only
    exact getD_set_self _ _ _ _ (by omega)
  · rw [hstep2]
    simp only
    exact getD_set_self _ _ _ _ (by omega)
  · rw [hstep2]
    simp only
    rw [getD_rename_ne _ _ _ _ (by omega)]
    exact hS1new
  · rw [hstep2]
    simp only
    rw [length_rename]
    exact hS1len
  · rw [hstep2]
    simp only
    rw [hfst1]
    simp

/-- Heap for the C5 witness: a `j` dimension, two distinct length-3 `i`
dimensions, and a forecast axis of matching `j` length. -/
def c5heap : Heap :=
  { axes := [dimType "j" 2, dimType "i" 3,
             axisType "forecast" [("units", AttVal.str "hours")] [0, 6],
             dimType "i" 3],
    coords := [] }

/-- Configuration for the C5 witness: forecast axis extracted, no level
variables configured. -/
def c5cfg : Config :=
  { momentumVars := [], thermoVars := [], forecastAxis := some 2,
    momentum := none, thermo := none }

/-- Initial remapper state for the C5 witness. -/
def c5s : MkState := { heap := c5heap, knownLevels := [], warnings := [] }

/-- First unconfigured profile variable (axes `j`, `i`). -/
def c5v1 : Var :=
  { name := "TT", atts := [("typvar", AttVal.str "T"), ("grtyp", AttVal.str "+")],
    axes := [0, 1], deps := [], recShape := [2] }

/-- Second unconfigured profile variable with its own `i` axis object of
the same length. -/
def c5v2 : Var :=
  { name := "HU", atts := [("typvar", AttVal.str "T"), ("grtyp", AttVal.str "+")],
    axes := [0, 3], deps := [], recShape := [2] }

/-- Witness for C5 at two concrete unconfigured profile variables. -/
theorem claimC5_witness :
    (passPlusVar c5cfg c5s c5v1).2.axes.getD 1 0 = c5s.heap.axes.length ∧
    (passPlusVar c5cfg (passPlusVar c5cfg c5s c5v1).1 c5v2).2.axes.getD 1 0 =
      c5s.heap.axes.length ∧
    (passPlusVar c5cfg (passPlusVar c5cfg c5s c5v1).1 c5v2).1.heap.axes.getD
      c5s.heap.axes.length dAx = dimType "level" 3 ∧
    (passPlusVar c5cfg (passPlusVar c5cfg c5s c5v1).1 c5v2).1.heap.axes.length =
      c5s.heap.axes.length + 1 ∧
    (passPlusVar c5cfg (passPlusVar c5cfg c5s c5v1).1 c5v2).1.warnings =
      c5s.warnings ++ [unableMsg c5v1.name, unableMsg c5v2.name] ∧
    passPlusList c5cfg c5s [c5v1, c5v2] =
      ((passPlusVar c5cfg (passPlusVar c5cfg c5s c5v1).1 c5v2).1,
       [(passPlusVar c5cfg c5s c5v1).2,
        (passPlusVar c5cfg (passPlusVar c5cfg c5s c5v1).1 c5v2).2]) := by
  refine claimC5_generic_level c5cfg c5s c5v1 c5v2 1 1 3
    (by decide) (by decide) (by decide) (by decide) (by decide) (by decide)
    (by decide) (by decide) (by decide) (by decide) (by decide) (by decide)
    (by decide) ?_ (by decide) (by decide) ?_
  · intro fa hfa
    have h2 : fa = 2 := by
      have : (some 2 : Option Nat) = some fa := hfa
      injection this with h
      exact h.symm
    subst h2
    decide
  · intro id hid
    have h2 : id = 0 ∨ id = 3 := by
      simpa [c5v2] using hid
    rcases h2 with rfl | rfl <;> decide

/-- Erasing a position that does not satisfy the predicate shifts the
first matching index down by one exactly when the erased position lies
before it. -/
theorem findIdxP_eraseIdx {α : Type} (p : α → Bool) (l : List α)
    (tidx fidx : Nat) (d : α)
    (hf : findIdxP p l = some fidx) (htl : tidx < l.length)
    (hpt : p (l.getD tidx d) = false) :
    findIdxP p (l.eraseIdx tidx) =
      some (if tidx < fidx then fidx - 1 else fidx) := by
  obtain ⟨hfl, hfp, hfm⟩ := findIdxP_spec p l fidx d hf
  have htf : tidx ≠ fidx := by
    intro hc
    rw [hc, hfp] at hpt
    cases hpt
  have hlen : (l.eraseIdx tidx).length = l.length - 1 := length_eraseIdx_lt l tidx htl
  by_cases hlt : tidx < fidx
  · rw [if_pos hlt]
    refine findIdxP_eq_some p _ (fidx - 1) d (by omega) ?_ ?_
    · rw [getD_eraseIdx_ge l tidx (fidx - 1) d htl (by omega)]
      have he : fidx - 1 + 1 = fidx := by omega
      rw [he]
      exact hfp
    · intro m hm
      by_cases hmt : m < tidx
      · rw [getD_eraseIdx_lt l tidx m d hmt]
        exact hfm m (by omega)
      · rw [getD_eraseIdx_ge l tidx m d htl (by omega)]
        exact hfm (m + 1) (by omega)
  · rw [if_neg hlt]
    refine findIdxP_eq_some p _ fidx d (by omega) ?_ ?_
    · rw [getD_eraseIdx_lt l tidx fidx d (by omega)]
      exact hfp
    · intro m hm
      rw [getD_eraseIdx_lt l tidx m d (by omega)]
      exact hfm m hm

/-- The squashed time axis created for a key: origin time plus forecast
hours converted to seconds, with the validity-time attributes. -/
def squashedTimeAxis (st : SqState) (timeId fcId : Nat) : Axis :=
  axisType "time" timeAtts
    ((st.heap.axVals fcId).map (fun x => (st.heap.axVals timeId).getD 0 0 + x * 3600))

/-- The `leadtime` coordinate created for a key. -/
def leadtimeCoord (st : SqState) (fcId : Nat) : Coord :=
  { name := "leadtime", atts := leadtimeAtts, axes := [st.heap.axes.length],
    data := CoordData.hours (st.heap.axVals fcId) }

/-- The `reftime` coordinate created for a key. -/
def reftimeCoord (st : SqState) (timeId : Nat) : Coord :=
  { name := "reftime", atts := reftimeAtts, axes := [],
    data := CoordData.scalarTime ((st.heap.axVals timeId).getD 0 0) }

/-- The one-time squash creation, spelled out: one new `time` axis object
appended to the axis arena, one `leadtime` and one `reftime` coordinate
appended to the coordinate arena, and all three caches extended for the
key. -/
theorem squashCreate_eq (st : SqState) (timeId fcId : Nat) :
    squashCreate st timeId fcId =
      { heap :=
          { axes := st.heap.axes ++ [squashedTimeAxis st timeId fcId],
            coords := st.heap.coords ++ [leadtimeCoord st fcId, reftimeCoord st timeId] },
        knownSquashed := st.knownSquashed ++ [((timeId, fcId), st.heap.axes.length)],
        knownLeadtimes := st.knownLeadtimes ++ [((timeId, fcId), st.heap.coords.length)],
        knownReftimes := st.knownReftimes ++ [((timeId, fcId), st.heap.coords.length + 1)],
        warnings := st.warnings } := by
  unfold squashCreate Heap.allocAxis Heap.allocCoord squashedTimeAxis leadtimeCoord reftimeCoord
  simp

/-- The multi-origin branch: warn and leave the variable unchanged. -/
theorem squashVarGo_warn (st : SqState) (v : Var) (tidx fidx : Nat)
    (hne : st.heap.axLen (v.axes.getD tidx 0) ≠ 1) :
    squashVarGo st v tidx fidx =
      ({ st with warnings := st.warnings ++ [multiOriginMsg] }, v) := by
  unfold squashVarGo
  rw [if_pos hne]

/-- Reduction of `squashVar` once both axis positions are known. -/
theorem squashVar_eq_go (st : SqState) (v : Var) (tidx fidx : Nat)
    (ht : findIdxP (fun d => d = "time") (v.dims st.heap) = some tidx)
    (hf : findIdxP (fun d => d = "forecast") (v.dims st.heap) = some fidx) :
    squashVar st v = squashVarGo st v tidx fidx := by
  rw [squashVar, ht, hf]

/-- The squash body on a cache hit: no allocation, the cached axis and
coordinate indices are reused. -/
theorem squashVarTail_cached (st : SqState) (v : Var) (tidx fidx sq ld rf : Nat)
    (htidx : findIdxP (fun d => d = "time") (v.dims st.heap) = some tidx)
    (hfidx : findIdxP (fun d => d = "forecast") (v.dims st.heap) = some fidx)
    (hcS : alookup st.knownSquashed (v.axes.getD tidx 0, v.axes.getD fidx 0) = some sq)
    (hcL : alookup st.knownLeadtimes (v.axes.getD tidx 0, v.axes.getD fidx 0) = some ld)
    (hcR : alookup st.knownReftimes (v.axes.getD tidx 0, v.axes.getD fidx 0) = some rf) :
    squashVarTail st v tidx fidx =
      (st,
       { v with recShape := v.recShape.eraseIdx tidx,
                axes := (v.axes.eraseIdx tidx).set (if tidx < fidx then fidx - 1 else fidx) sq,
                deps := v.deps ++ [ld, rf] }) := by
  obtain ⟨htl, htp, _⟩ := findIdxP_spec (fun d => d = "time") (v.dims st.heap) tidx "" htidx
  have hvl : (v.dims st.heap).length = v.axes.length := by simp [Var.dims]
  have hptime : (fun d => decide (d = "forecast")) ((v.dims st.heap).getD tidx "") = false := by
    have he : (v.dims st.heap).getD tidx "" = "time" := by simpa using htp
    rw [he]
    decide
  have hdims1 : Var.dims { v with recShape := v.recShape.eraseIdx tidx, axes := v.axes.eraseIdx tidx } st.heap = (v.dims st.heap).eraseIdx tidx := by
    unfold Var.dims
    exact map_eraseIdx _ _ _
  have hfx1 : findIdxP (fun d => d = "forecast") (Var.dims { v with recShape := v.recShape.eraseIdx tidx, axes := v.axes.eraseIdx tidx } st.heap) = some (if tidx < fidx then fidx - 1 else fidx) := by
    rw [hdims1]
    exact findIdxP_eraseIdx _ _ tidx fidx "" hfidx htl hptime
  simp only [squashVarTail, hcS, hfx1, hcL, hcR, Option.getD_some]

/-- The squash body on a cache miss: the axis and both coordinates are
created once and the fresh indices are used. -/
theorem squashVarTail_fresh (st : SqState) (v : Var) (tidx fidx : Nat)
    (hrange : ∀ id, id ∈ v.axes → id < st.heap.axes.length)
    (htidx : findIdxP (fun d => d = "time") (v.dims st.heap) = some tidx)
    (hfidx : findIdxP (fun d => d = "forecast") (v.dims st.heap) = some fidx)
    (hfreshS : alookup st.knownSquashed (v.axes.getD tidx 0, v.axes.getD fidx 0) = none)
    (hfreshL : alookup st.knownLeadtimes (v.axes.getD tidx 0, v.axes.getD fidx 0) = none)
    (hfreshR : alookup st.knownReftimes (v.axes.getD tidx 0, v.axes.getD fidx 0) = none) :
    squashVarTail st v tidx fidx =
      (squashCreate st (v.axes.getD tidx 0) (v.axes.getD fidx 0),
       { v with recShape := v.recShape.eraseIdx tidx,
                axes := (v.axes.eraseIdx tidx).set (if tidx < fidx then fidx - 1 else fidx) st.heap.axes.length,
                deps := v.deps ++ [st.heap.coords.length, st.heap.coords.length + 1] }) := by
  obtain ⟨htl, htp, _⟩ := findIdxP_spec (fun d => d = "time") (v.dims st.heap) tidx "" htidx
  have hvl : (v.dims st.heap).length = v.axes.length := by simp [Var.dims]
  have hptime : (fun d => decide (d = "forecast")) ((v.dims st.heap).getD tidx "") = false := by
    have he : (v.dims st.heap).getD tidx "" = "time" := by simpa using htp
    rw [he]
    decide
  have haxn : ∀ id, id ∈ v.axes → Heap.axName (squashCreate st (v.axes.getD tidx 0) (v.axes.getD fidx 0)).heap id = st.heap.axName id := by
    intro id hid
    rw [squashCreate_eq]
    unfold Heap.axName
    simp only
    rw [getD_append_lt _ _ _ _ (hrange id hid)]
  have hdims1 : Var.dims { v with recShape := v.recShape.eraseIdx tidx, axes := v.axes.eraseIdx tidx } (squashCreate st (v.axes.getD tidx 0) (v.axes.getD fidx 0)).heap = (v.dims st.heap).eraseIdx tidx := by
    unfold Var.dims
    rw [map_eraseIdx]
    congr 1
    refine List.map_congr_left ?_
    intro id hid
    exact haxn id hid
  have hfx1 : findIdxP (fun d => d = "forecast") (Var.dims { v with recShape := v.recShape.eraseIdx tidx, axes := v.axes.eraseIdx tidx } (squashCreate st (v.axes.getD tidx 0) (v.axes.getD fidx 0)).heap) = some (if tidx < fidx then fidx - 1 else fidx) := by
    rw [hdims1]
    exact findIdxP_eraseIdx _ _ tidx fidx "" hfidx htl hptime
  have hS2 : alookup (squashCreate st (v.axes.getD tidx 0) (v.axes.getD fidx 0)).knownSquashed (v.axes.getD tidx 0, v.axes.getD fidx 0) = some st.heap.axes.length := by
    rw [squashCreate_eq]
    exact alookup_append_single _ _ _ hfreshS
  have hL2 : alookup (squashCreate st (v.axes.getD tidx 0) (v.axes.getD fidx 0)).knownLeadtimes (v.axes.getD tidx 0, v.axes.getD fidx 0) = some st.heap.coords.length := by
    rw [squashCreate_eq]
    exact alookup_append_single _ _ _ hfreshL
  have hR2 : alookup (squashCreate st (v.axes.getD tidx 0) (v.axes.getD fidx 0)).knownReftimes (v.axes.getD tidx 0, v.axes.getD fidx 0) = some (st.heap.coords.length + 1) := by
    rw [squashCreate_eq]
    exact alookup_append_single _ _ _ hfreshR
  simp only [squashVarTail, hfreshS, hfx1, hS2, hL2, hR2, Option.getD_some]

/-- The guarded squash pass on a one-variable list. -/
theorem squashPass_single (st : SqState) (v : Var) :
    squashPass true st [v] = ((squashVar st v).1, [(squashVar st v).2]) := rfl

/-- The guarded squash pass on a two-variable list. -/
theorem squashPass_pair (st : SqState) (v1 v2 : Var) :
    squashPass true st [v1, v2] =
      ((squashVar (squashVar st v1).1 v2).1,
       [(squashVar st v1).2, (squashVar (squashVar st v1).1 v2).2]) := rfl

/-- C6: with forecast squashing enabled, a variable carrying both a time
and a forecast axis is left unchanged with a warning when the time axis is
not of length exactly 1; otherwise the time dimension is removed (the
dimension count drops by exactly one) and the forecast entry is replaced
by a time axis whose values are the single origin time plus the forecast
hours converted to seconds. -/
theorem claimC6_squash (st : SqState) (v : Var) (tidx fidx : Nat) (t0 : Int)
    (htidx : findIdxP (fun d => d = "time") (v.dims st.heap) = some tidx)
    (hfidx : findIdxP (fun d => d = "forecast") (v.dims st.heap) = some fidx)
    (hrange : ∀ id, id ∈ v.axes → id < st.heap.axes.length)
    (hfreshS : alookup st.knownSquashed (v.axes.getD tidx 0, v.axes.getD fidx 0) = none)
    (hfreshL : alookup st.knownLeadtimes (v.axes.getD tidx 0, v.axes.getD fidx 0) = none)
    (hfreshR : alookup st.knownReftimes (v.axes.getD tidx 0, v.axes.getD fidx 0) = none) :
    (st.heap.axLen (v.axes.getD tidx 0) ≠ 1 →
      squashPass true st [v] =
        ({ st with warnings := st.warnings ++ [multiOriginMsg] }, [v])) ∧
    ((st.heap.axes.getD (v.axes.getD tidx 0) dAx).vals = some [t0] →
      ((squashPass true st [v]).2.headD v).axes.length + 1 = v.axes.length ∧
      ((squashPass true st [v]).2.headD v).axes.getD (if tidx < fidx then fidx - 1 else fidx) 0 = st.heap.axes.length ∧
      (squashPass true st [v]).1.heap.axes.getD st.heap.axes.length dAx =
        axisType "time" timeAtts ((st.heap.axVals (v.axes.getD fidx 0)).map (fun x => t0 + x * 3600))) := by
  obtain ⟨htl, htp, _⟩ := findIdxP_spec (fun d => d = "time") (v.dims st.heap) tidx "" htidx
  obtain ⟨hfl, hfp, _⟩ := findIdxP_spec (fun d => d = "forecast") (v.dims st.heap) fidx "" hfidx
  have hvl : (v.dims st.heap).length = v.axes.length := by simp [Var.dims]
  have htfne : tidx ≠ fidx := by
    intro hc
    rw [hc] at htp
    have h1 : (v.dims st.heap).getD fidx "" = "time" := by simpa using htp
    have h2 : (v.dims st.heap).getD fidx "" = "forecast" := by simpa using hfp
    rw [h1] at h2
    exact absurd h2 (by decide)
  constructor
  · intro hne
    rw [squashPass_single, squashVar_eq_go st v tidx fidx htidx hfidx,
      squashVarGo_warn st v tidx fidx hne]
  · intro hvals
    have hlen1 : st.heap.axLen (v.axes.getD tidx 0) = 1 := by
      unfold Heap.axLen Axis.len
      rw [hvals]
      rfl
    have ht0 : (st.heap.axVals (v.axes.getD tidx 0)).getD 0 0 = t0 := by
      unfold Heap.axVals
      rw [hvals]
      rfl
    have hgo : squashVar st v = squashVarTail st v tidx fidx := by
      rw [squashVar_eq_go st v tidx fidx htidx hfidx]
      unfold squashVarGo
      rw [if_neg (by rw [hlen1]; simp)]
    have htail := squashVarTail_fresh st v tidx fidx hrange htidx hfidx hfreshS hfreshL hfreshR
    have hstep : squashVar st v = (squashCreate st (v.axes.getD tidx 0) (v.axes.getD fidx 0), { v with recShape := v.recShape.eraseIdx tidx, axes := (v.axes.eraseIdx tidx).set (if tidx < fidx then fidx - 1 else fidx) st.heap.axes.length, deps := v.deps ++ [st.heap.coords.length, st.heap.coords.length + 1] }) := by
      rw [hgo, htail]
    have herl : (v.axes.eraseIdx tidx).length = v.axes.length - 1 :=
      length_eraseIdx_lt v.axes tidx (by omega)
    have hidx : (if tidx < fidx then fidx - 1 else fidx) < (v.axes.eraseIdx tidx).length := by
      rw [herl]
      by_cases hc : tidx < fidx
      · rw [if_pos hc]; omega
      · rw [if_neg hc]; omega
    refine ⟨?_, ?_, ?_⟩
    · rw [squashPass_single]
      simp only [List.headD_cons]
      rw [hstep]
      simp only [List.length_set]
      rw [herl]
      omega
    · rw [squashPass_single]
      simp only [List.headD_cons]
      rw [hstep]
      simp only
      exact getD_set_self _ _ _ _ hidx
    · rw [squashPass_single]
      simp only
      rw [hstep]
      simp only
      rw [squashCreate_eq]
      simp only
      rw [getD_append_self]
      unfold squashedTimeAxis
      rw [ht0]

/-- Heap for the C6 multi-origin witness: a two-valued time axis. -/
def c6heapA : Heap :=
  { axes := [axisType "time" [] [100000, 200000],
             axisType "forecast" [("units", AttVal.str "hours")] [0, 6, 12]],
    coords := [] }

/-- Squash state over the multi-origin heap. -/
def c6stA : SqState :=
  { heap := c6heapA, knownSquashed := [], knownLeadtimes := [],
    knownReftimes := [], warnings := [] }

/-- Heap for the C6 single-origin witness: origin time 100000 seconds and
forecast hours 0, 6, 12. -/
def c6heapB : Heap :=
  { axes := [axisType "time" [] [100000],
             axisType "forecast" [("units", AttVal.str "hours")] [0, 6, 12]],
    coords := [] }

/-- Squash state over the single-origin heap. -/
def c6stB : SqState :=
  { heap := c6heapB, knownSquashed := [], knownLeadtimes := [],
    knownReftimes := [], warnings := [] }

/-- A variable carrying the time axis and the forecast axis. -/
def c6v : Var :=
  { name := "TT", atts := [], axes := [0, 1], deps := [], recShape := [2, 3] }

/-- Witness for C6: the multi-origin instance warns and leaves the
variable unchanged; the single-origin instance drops one dimension and
installs the time axis `[100000, 121600, 143200]` (origin plus 0, 6, 12
hours in seconds) at the forecast position. -/
theorem claimC6_witness :
    squashPass true c6stA [c6v] =
      ({ c6stA with warnings := c6stA.warnings ++ [multiOriginMsg] }, [c6v]) ∧
    ((squashPass true c6stB [c6v]).2.headD c6v).axes.length + 1 = c6v.axes.length ∧
    c6stB.heap.axes.length = 2 ∧
    ((squashPass true c6stB [c6v]).2.headD c6v).axes.getD 0 0 = c6stB.heap.axes.length ∧
    (squashPass true c6stB [c6v]).1.heap.axes.getD c6stB.heap.axes.length dAx =
      axisType "time" timeAtts [100000, 121600, 143200] := by
  have hmem : ∀ id, id ∈ c6v.axes → id < (2 : Nat) := by
    intro id hid
    have h2 : id = 0 ∨ id = 1 := by simpa [c6v] using hid
    rcases h2 with rfl | rfl <;> decide
  have hA := (claimC6_squash c6stA c6v 0 1 0 (by decide) (by decide) hmem
    (by decide) (by decide) (by decide)).1 (by decide)
  have hB := (claimC6_squash c6stB c6v 0 1 100000 (by decide) (by decide) hmem
    (by decide) (by decide) (by decide)).2 (by decide)
  obtain ⟨hb1, hb2, hb3⟩ := hB
  refine ⟨hA, hb1, rfl, ?_, ?_⟩
  · simpa using hb2
  · rw [hb3]
    decide

/-- C7: two variables sharing the same time and forecast axis objects (a
single origin date) receive, during one squash pass, the identical
squashed time axis index at their forecast position and the identical
`leadtime` and `reftime` coordinate indices appended to their dependency
lists; exactly one axis and exactly two coordinates are allocated for the
pair. -/
theorem claimC7_shared_squash (st : SqState) (v1 v2 : Var) (t1 f1 t2 f2 : Nat)
    (ht1 : findIdxP (fun d => d = "time") (v1.dims st.heap) = some t1)
    (hf1 : findIdxP (fun d => d = "forecast") (v1.dims st.heap) = some f1)
    (ht2 : findIdxP (fun d => d = "time") (v2.dims st.heap) = some t2)
    (hf2 : findIdxP (fun d => d = "forecast") (v2.dims st.heap) = some f2)
    (heqt : v2.axes.getD t2 0 = v1.axes.getD t1 0)
    (heqf : v2.axes.getD f2 0 = v1.axes.getD f1 0)
    (hlen1 : st.heap.axLen (v1.axes.getD t1 0) = 1)
    (hrange1 : ∀ id, id ∈ v1.axes → id < st.heap.axes.length)
    (hrange2 : ∀ id, id ∈ v2.axes → id < st.heap.axes.length)
    (hfreshS : alookup st.knownSquashed (v1.axes.getD t1 0, v1.axes.getD f1 0) = none)
    (hfreshL : alookup st.knownLeadtimes (v1.axes.getD t1 0, v1.axes.getD f1 0) = none)
    (hfreshR : alookup st.knownReftimes (v1.axes.getD t1 0, v1.axes.getD f1 0) = none) :
    (squashVar st v1).2.axes.getD (if t1 < f1 then f1 - 1 else f1) 0 = st.heap.axes.length ∧
    (squashVar (squashVar st v1).1 v2).2.axes.getD (if t2 < f2 then f2 - 1 else f2) 0 = st.heap.axes.length ∧
    (squashVar st v1).2.deps = v1.deps ++ [st.heap.coords.length, st.heap.coords.length + 1] ∧
    (squashVar (squashVar st v1).1 v2).2.deps = v2.deps ++ [st.heap.coords.length, st.heap.coords.length + 1] ∧
    (squashVar (squashVar st v1).1 v2).1.heap.axes.length = st.heap.axes.length + 1 ∧
    (squashVar (squashVar st v1).1 v2).1.heap.coords.length = st.heap.coords.length + 2 ∧
    squashPass true st [v1, v2] =
      ((squashVar (squashVar st v1).1 v2).1,
       [(squashVar st v1).2, (squashVar (squashVar st v1).1 v2).2]) := by
  obtain ⟨htl1, htp1, _⟩ := findIdxP_spec (fun d => d = "time") (v1.dims st.heap) t1 "" ht1
  obtain ⟨hfl1, hfp1, _⟩ := findIdxP_spec (fun d => d = "forecast") (v1.dims st.heap) f1 "" hf1
  obtain ⟨htl2, htp2, _⟩ := findIdxP_spec (fun d => d = "time") (v2.dims st.heap) t2 "" ht2
  obtain ⟨hfl2, hfp2, _⟩ := findIdxP_spec (fun d => d = "forecast") (v2.dims st.heap) f2 "" hf2
  have hvl1 : (v1.dims st.heap).length = v1.axes.length := by simp [Var.dims]
  have hvl2 : (v2.dims st.heap).length = v2.axes.length := by simp [Var.dims]
  have htfne1 : t1 ≠ f1 := by
    intro hc
    rw [hc] at htp1
    have ha : (v1.dims st.heap).getD f1 "" = "time" := by simpa using htp1
    have hb : (v1.dims st.heap).getD f1 "" = "forecast" := by simpa using hfp1
    rw [ha] at hb
    exact absurd hb (by decide)
  have htfne2 : t2 ≠ f2 := by
    intro hc
    rw [hc] at htp2
    have ha : (v2.dims st.heap).getD f2 "" = "time" := by simpa using htp2
    have hb : (v2.dims st.heap).getD f2 "" = "forecast" := by simpa using hfp2
    rw [ha] at hb
    exact absurd hb (by decide)
  -- first variable: fresh creation
  have hgo1 : squashVar st v1 = squashVarTail st v1 t1 f1 := by
    rw [squashVar_eq_go st v1 t1 f1 ht1 hf1]
    unfold squashVarGo
    rw [if_neg (by rw [hlen1]; simp)]
  have hstep1 : squashVar st v1 = (squashCreate st (v1.axes.getD t1 0) (v1.axes.getD f1 0), { v1 with recShape := v1.recShape.eraseIdx t1, axes := (v1.axes.eraseIdx t1).set (if t1 < f1 then f1 - 1 else f1) st.heap.axes.length, deps := v1.deps ++ [st.heap.coords.length, st.heap.coords.length + 1] }) := by
    rw [hgo1, squashVarTail_fresh st v1 t1 f1 hrange1 ht1 hf1 hfreshS hfreshL hfreshR]
  -- the intermediate state
  have haxn1 : ∀ id, id < st.heap.axes.length → Heap.axName (squashCreate st (v1.axes.getD t1 0) (v1.axes.getD f1 0)).heap id = st.heap.axName id := by
    intro id hid
    rw [squashCreate_eq]
    unfold Heap.axName
    simp only
    rw [getD_append_lt _ _ _ _ hid]
  have hgetD1 : ∀ id, id < st.heap.axes.length → (squashCreate st (v1.axes.getD t1 0) (v1.axes.getD f1 0)).heap.axes.getD id dAx = st.heap.axes.getD id dAx := by
    intro id hid
    rw [squashCreate_eq]
    simp only
    rw [getD_append_lt _ _ _ _ hid]
  have hdims2 : v2.dims (squashCreate st (v1.axes.getD t1 0) (v1.axes.getD f1 0)).heap = v2.dims st.heap := by
    unfold Var.dims
    refine List.map_congr_left ?_
    intro id hid
    exact haxn1 id (hrange2 id hid)
  have ht2t : findIdxP (fun d => d = "time") (v2.dims (squashCreate st (v1.axes.getD t1 0) (v1.axes.getD f1 0)).heap) = some t2 := by
    rw [hdims2]; exact ht2
  have hf2t : findIdxP (fun d => d = "forecast") (v2.dims (squashCreate st (v1.axes.getD t1 0) (v1.axes.getD f1 0)).heap) = some f2 := by
    rw [hdims2]; exact hf2
  have ht2mem : v2.axes.getD t2 0 ∈ v2.axes := getD_mem _ _ _ (by omega)
  have hlen2t : (squashCreate st (v1.axes.getD t1 0) (v1.axes.getD f1 0)).heap.axLen (v2.axes.getD t2 0) = 1 := by
    unfold Heap.axLen
    rw [hgetD1 _ (hrange2 _ ht2mem)]
    rw [heqt]
    exact hlen1
  have hkey2 : (v2.axes.getD t2 0, v2.axes.getD f2 0) = (v1.axes.getD t1 0, v1.axes.getD f1 0) := by
    rw [heqt, heqf]
  have hcS2 : alookup (squashCreate st (v1.axes.getD t1 0) (v1.axes.getD f1 0)).knownSquashed (v2.axes.getD t2 0, v2.axes.getD f2 0) = some st.heap.axes.length := by
    rw [hkey2, squashCreate_eq]
    exact alookup_append_single _ _ _ hfreshS
  have hcL2 : alookup (squashCreate st (v1.axes.getD t1 0) (v1.axes.getD f1 0)).knownLeadtimes (v2.axes.getD t2 0, v2.axes.getD f2 0) = some st.heap.coords.length := by
    rw [hkey2, squashCreate_eq]
    exact alookup_append_single _ _ _ hfreshL
  have hcR2 : alookup (squashCreate st (v1.axes.getD t1 0) (v1.axes.getD f1 0)).knownReftimes (v2.axes.getD t2 0, v2.axes.getD f2 0) = some (st.heap.coords.length + 1) := by
    rw [hkey2, squashCreate_eq]
    exact alookup_append_single _ _ _ hfreshR
  -- second variable: cached reuse
  have hgo2 : squashVar (squashVar st v1).1 v2 = squashVarTail (squashVar st v1).1 v2 t2 f2 := by
    rw [hstep1]
    simp only
    rw [squashVar_eq_go _ v2 t2 f2 ht2t hf2t]
    unfold squashVarGo
    rw [if_neg (by rw [hlen2t]; simp)]
  have hstep2 : squashVar (squashVar st v1).1 v2 = (squashCreate st (v1.axes.getD t1 0) (v1.axes.getD f1 0), { v2 with recShape := v2.recShape.eraseIdx t2, axes := (v2.axes.eraseIdx t2).set (if t2 < f2 then f2 - 1 else f2) st.heap.axes.length, deps := v2.deps ++ [st.heap.coords.length, st.heap.coords.length + 1] }) := by
    rw [hgo2, hstep1]
    simp only
    rw [squashVarTail_cached (squashCreate st (v1.axes.getD t1 0) (v1.axes.getD f1 0)) v2 t2 f2 st.heap.axes.length st.heap.coords.length (st.heap.coords.length + 1) ht2t hf2t hcS2 hcL2 hcR2]
  have herl1 : (v1.axes.eraseIdx t1).length = v1.axes.length - 1 :=
    length_eraseIdx_lt v1.axes t1 (by omega)
  have herl2 : (v2.axes.eraseIdx t2).length = v2.axes.length - 1 :=
    length_eraseIdx_lt v2.axes t2 (by omega)
  have hidx1 : (if t1 < f1 then f1 - 1 else f1) < (v1.axes.eraseIdx t1).length := by
    rw [herl1]
    by_cases hc : t1 < f1
    · rw [if_pos hc]; omega
    · rw [if_neg hc]; omega
  have hidx2 : (if t2 < f2 then f2 - 1 else f2) < (v2.axes.eraseIdx t2).length := by
    rw [herl2]
    by_cases hc : t2 < f2
    · rw [if_pos hc]; omega
    · rw [if_neg hc]; omega
  refine ⟨?_, ?_, ?_, ?_, ?_, ?_, rfl⟩
  · rw [hstep1]
    simp only
    exact getD_set_self _ _ _ _ hidx1
  · rw [hstep2]
    simp only
    exact getD_set_self _ _ _ _ hidx2
  · rw [hstep1]
  · rw [hstep2]
  · rw [hstep2]
    simp only
    rw [squashCreate_eq]
    simp
  · rw [hstep2]
    simp only
    rw [squashCreate_eq]
    simp

/-- A second variable sharing the same time and forecast axis objects. -/
def c7v2 : Var :=
  { name := "HU", atts := [], axes := [0, 1], deps := [], recShape := [2, 3] }

/-- Witness for C7 at two concrete variables sharing the single-origin
time axis and the forecast axis. -/
theorem claimC7_witness :
    (squashVar c6stB c6v).2.axes.getD 0 0 = c6stB.heap.axes.length ∧
    (squashVar (squashVar c6stB c6v).1 c7v2).2.axes.getD 0 0 = c6stB.heap.axes.length ∧
    (squashVar c6stB c6v).2.deps = c6v.deps ++ [c6stB.heap.coords.length, c6stB.heap.coords.length + 1] ∧
    (squashVar (squashVar c6stB c6v).1 c7v2).2.deps = c7v2.deps ++ [c6stB.heap.coords.length, c6stB.heap.coords.length + 1] ∧
    (squashVar (squashVar c6stB c6v).1 c7v2).1.heap.axes.length = c6stB.heap.axes.length + 1 ∧
    (squashVar (squashVar c6stB c6v).1 c7v2).1.heap.coords.length = c6stB.heap.coords.length + 2 ∧
    squashPass true c6stB [c6v, c7v2] =
      ((squashVar (squashVar c6stB c6v).1 c7v2).1,
       [(squashVar c6stB c6v).2, (squashVar (squashVar c6stB c6v).1 c7v2).2]) := by
  have hmem1 : ∀ id, id ∈ c6v.axes → id < c6stB.heap.axes.length := by
    intro id hid
    have h2 : id = 0 ∨ id = 1 := by simpa [c6v] using hid
    rcases h2 with rfl | rfl <;> decide
  have hmem2 : ∀ id, id ∈ c7v2.axes → id < c6stB.heap.axes.length := by
    intro id hid
    have h2 : id = 0 ∨ id = 1 := by simpa [c7v2] using hid
    rcases h2 with rfl | rfl <;> decide
  obtain ⟨h1, h2, h3, h4, h5, h6, h7⟩ := claimC7_shared_squash c6stB c6v c7v2 0 1 0 1
    (by decide) (by decide) (by decide) (by decide) (by decide) (by decide)
    (by decide) hmem1 hmem2 (by decide) (by decide) (by decide)
  exact ⟨by simpa using h1, by simpa using h2, h3, h4, h5, h6, h7⟩

/-- C8: a variable group whose `station_id` axis length differs from the
canonical station count gets a fresh subset coordinate whose rows are the
canonical rows selected at `station_id value - 1` (1-based identifiers),
carried by a fresh `station_id` axis holding the group's own values
unchanged; the coordinate is appended to every group variable's dependency
list and the variables' axis lists are untouched. -/
theorem claimC8_station_subset (h : Heap) (stId gAx : Nat) (vars : List Var)
    (hne : h.axLen gAx ≠ (stationRows (h.coords.getD stId dCoord)).length)
    (hpos : ∀ x, x ∈ h.axVals gAx → 1 ≤ x) :
    ((bindStationGroup h stId gAx vars).1.coords.getD h.coords.length dCoord).data =
      CoordData.chars ((h.axVals gAx).map (fun x => (stationRows (h.coords.getD stId dCoord)).getD (x - 1).toNat "")) ∧
    (bindStationGroup h stId gAx vars).1.axes.getD h.axes.length dAx =
      axisType "station_id" [] (h.axVals gAx) ∧
    (bindStationGroup h stId gAx vars).2 =
      vars.map (fun v => { v with deps := v.deps ++ [h.coords.length] }) := by
  have hmap : (h.axVals gAx).map (fun x => npRow (stationRows (h.coords.getD stId dCoord)) (x - 1)) = (h.axVals gAx).map (fun x => (stationRows (h.coords.getD stId dCoord)).getD (x - 1).toNat "") := by
    refine List.map_congr_left ?_
    intro x hx
    unfold npRow
    rw [if_pos (by have := hpos x hx; omega)]
  have hred : bindStationGroup h stId gAx vars = ({ axes := h.axes ++ [axisType "station_id" [] (h.axVals gAx)], coords := h.coords ++ [{ name := "station", atts := [], axes := [h.axes.length, (h.coords.getD stId dCoord).axes.getD 1 0], data := CoordData.chars ((h.axVals gAx).map (fun x => npRow (stationRows (h.coords.getD stId dCoord)) (x - 1))) }] }, vars.map (fun v => { v with deps := v.deps ++ [h.coords.length] })) := by
    unfold bindStationGroup Heap.allocAxis Heap.allocCoord
    rw [if_neg hne]
  refine ⟨?_, ?_, ?_⟩
  · rw [hred]
    simp only
    rw [getD_append_self]
    rw [hmap]
  · rw [hred]
    simp only
    rw [getD_append_self]
  · rw [hred]

/-- Heap for the C8 witness: the canonical station coordinate `A`, `B`,
`C` (ids 1, 2, 3) and a group `station_id` axis with values `[3, 1]`. -/
def c8heap : Heap :=
  { axes := [dimType "station_id" 3, dimType "station_strlen" 1,
             axisType "station_id" [] [3, 1]],
    coords := [{ name := "station", atts := [], axes := [0, 1],
                 data := CoordData.chars ["A", "B", "C"] }] }

/-- A variable carrying the subset `station_id` axis. -/
def c8v : Var :=
  { name := "TT", atts := [], axes := [2], deps := [], recShape := [2] }

/-- Witness for C8: station values `[3, 1]` over canonical `A`, `B`, `C`
select the rows `C`, `A` in that order; the group variable keeps its axis
and gains the new coordinate as a dependency. -/
theorem claimC8_witness :
    ((bindStationGroup c8heap 0 2 [c8v]).1.coords.getD c8heap.coords.length dCoord).data =
      CoordData.chars ((c8heap.axVals 2).map (fun x => (stationRows (c8heap.coords.getD 0 dCoord)).getD (x - 1).toNat "")) ∧
    CoordData.chars ((c8heap.axVals 2).map (fun x => (stationRows (c8heap.coords.getD 0 dCoord)).getD (x - 1).toNat "")) = CoordData.chars ["C", "A"] ∧
    (bindStationGroup c8heap 0 2 [c8v]).1.axes.getD c8heap.axes.length dAx =
      axisType "station_id" [] (c8heap.axVals 2) ∧
    (bindStationGroup c8heap 0 2 [c8v]).2 =
      [{ c8v with deps := c8v.deps ++ [c8heap.coords.length] }] := by
  have hpos : ∀ x, x ∈ c8heap.axVals 2 → (1 : Int) ≤ x := by
    intro x hx
    have he : c8heap.axVals 2 = [3, 1] := rfl
    rw [he] at hx
    have h2 : x = 3 ∨ x = 1 := by simpa using hx
    rcases h2 with rfl | rfl <;> decide
  obtain ⟨h1, h2, h3⟩ := claimC8_station_subset c8heap 0 2 [c8v] (by decide) hpos
  exact ⟨h1, by decide, h2, by simpa using h3⟩

/-- Heap for the C10 counterexample: a length-1 `i` dimension and momentum
and thermodynamic axes of the same length 1. -/
def c10heap : Heap :=
  { axes := [dimType "i" 1, axisType "level" [] [7], axisType "level" [] [9]],
    coords := [] }

/-- Configuration naming the variable in both level categories, with both
axes extracted. -/
def c10cfg : Config :=
  { momentumVars := ["TT"], thermoVars := ["TT"], forecastAxis := none,
    momentum := some 1, thermo := some 2 }

/-- Initial remapper state for the C10 counterexample. -/
def c10s : MkState := { heap := c10heap, knownLevels := [], warnings := [] }

/-- A profile variable configured in both categories whose `i` axis has
length 1. -/
def c10v : Var :=
  { name := "TT", atts := [("typvar", AttVal.str "T"), ("grtyp", AttVal.str "+")],
    axes := [0], deps := [], recShape := [] }

/-- Counterexample to C10 as stated: a profile variable named in both
level categories, with both axes extracted and both lengths equal to the
`i` axis length (here 1) — yet the thermodynamic axis (index 2) is not
substituted: the length-1 test fires first and the dimension is dropped
outright. -/
theorem claimC10_counterexample :
    c10v.name ∈ c10cfg.momentumVars ∧ c10v.name ∈ c10cfg.thermoVars ∧
    c10cfg.momentum = some 1 ∧ c10cfg.thermo = some 2 ∧
    c10s.heap.axLen 1 = c10s.heap.axLen (c10v.axes.getD 0 0) ∧
    c10s.heap.axLen 2 = c10s.heap.axLen (c10v.axes.getD 0 0) ∧
    findIdxP (fun d => d = "i") (c10v.dims c10s.heap) = some 0 ∧
    (passPlusVar c10cfg c10s c10v).2.axes = [] ∧
    ¬ 2 ∈ (passPlusVar c10cfg c10s c10v).2.axes := by decide

/-- C10 (amended: `i` axis length different from 1, which the length-1
early exit forces): for a profile variable named in both the momentum and
thermodynamic lists, with both axes extracted and both lengths equal to
the `i` axis length, the thermodynamic axis is the one substituted for the
`i` axis (the thermodynamic check runs after the momentum check and
overrides its assignment); the vertical kind 5 is recorded and no warning
is emitted. -/
theorem claimC10_thermo_priority (cfg : Config) (s : MkState) (v : Var)
    (k mId tId : Nat)
    (hT : isTypvarT v = true) (hP : isGrtypPlus v = true)
    (hfa : ∀ fa, cfg.forecastAxis = some fa → s.heap.axName fa = "forecast")
    (hk : findIdxP (fun d => d = "i") (v.dims s.heap) = some k)
    (hm : cfg.momentum = some mId) (ht : cfg.thermo = some tId)
    (hinm : v.name ∈ cfg.momentumVars) (hint : v.name ∈ cfg.thermoVars)
    (hlm : s.heap.axLen mId = s.heap.axLen (v.axes.getD k 0))
    (hlt : s.heap.axLen tId = s.heap.axLen (v.axes.getD k 0))
    (hone : s.heap.axLen (v.axes.getD k 0) ≠ 1)
    (htne : tId ≠ v.axes.getD k 0) :
    (passPlusVar cfg s v).2.axes.getD k 0 = tId ∧
    getAtt (passPlusVar cfg s v).2.atts "kind" = some (AttVal.int 5) ∧
    (passPlusVar cfg s v).1.warnings = s.warnings := by
  obtain ⟨hfi, hax, hlenJ, hname, hatts, _, _, _⟩ :=
    remapJ_keeps_i cfg s.heap v k hfa hk
  obtain ⟨hkl, _, _⟩ := findIdxP_spec (fun d => d = "i") (v.dims s.heap) k "" hk
  have hvl : (v.dims s.heap).length = v.axes.length := by simp [Var.dims]
  have hres := remapI_subst_both cfg s (remapJ cfg s.heap v) k (some k) mId tId
    hfi (by rw [hax]; exact hone) hm ht
    (by rw [hname]; exact hinm) (by rw [hname]; exact hint)
    (by rw [hax]; exact hlm) (by rw [hax]; exact hlt)
    (by rw [hax]; exact htne)
  rw [hax] at hres
  have hstep : passPlusVar cfg s v =
      ({ heap := s.heap.renameAxis (v.axes.getD k 0) "level",
         knownLevels := s.knownLevels, warnings := s.warnings },
       { remapJ cfg s.heap v with
           atts := setAtt (remapJ cfg s.heap v).atts "kind" (AttVal.int 5),
           axes := (remapJ cfg s.heap v).axes.set k tId }) := by
    rw [passPlusVar_reduce cfg s v hT hP, hk, hres]
    simp
  refine ⟨?_, ?_, ?_⟩
  · rw [hstep]
    simp only
    exact getD_set_self _ _ _ _ (by omega)
  · rw [hstep]
    simp only
    exact getAtt_setAtt _ _ _
  · rw [hstep]

/-- Heap for the C10 witness: a length-2 `i` dimension with matching
momentum and thermodynamic axes. -/
def c10bheap : Heap :=
  { axes := [dimType "i" 2, axisType "level" [] [7, 8], axisType "level" [] [9, 10]],
    coords := [] }

/-- Initial remapper state for the C10 witness. -/
def c10bs : MkState := { heap := c10bheap, knownLevels := [], warnings := [] }

/-- Witness for the amended C10 at a concrete doubly-configured profile
variable with `i` axis length 2. -/
theorem claimC10_witness :
    (passPlusVar c10cfg c10bs c10v).2.axes.getD 0 0 = 2 ∧
    getAtt (passPlusVar c10cfg c10bs c10v).2.atts "kind" = some (AttVal.int 5) ∧
    (passPlusVar c10cfg c10bs c10v).1.warnings = c10bs.warnings := by
  refine claimC10_thermo_priority c10cfg c10bs c10v 0 1 2
    (by decide) (by decide) ?_ (by decide) (by decide) (by decide)
    (by decide) (by decide) (by decide) (by decide) (by decide) (by decide)
  intro fa hfa
  simp [c10cfg] at hfa

/-- Equality of an axis object's contents apart from its name: attributes,
value array and dimension length. -/
def axisContentEq (a b : Axis) : Prop :=
  a.atts = b.atts ∧ a.vals = b.vals ∧ a.dimLen = b.dimLen

/-- Heap evolution discipline of the remapper: pre-existing axis objects
keep their contents, and their name is untouched except for the single
sanctioned in-place rename of a generic `i` axis to `level`. -/
def heapEvolved (h h2 : Heap) : Prop :=
  h.axes.length ≤ h2.axes.length ∧
  ∀ i, i < h.axes.length →
    axisContentEq (h2.axes.getD i dAx) (h.axes.getD i dAx) ∧
    ((h2.axes.getD i dAx).name = (h.axes.getD i dAx).name ∨
      ((h.axes.getD i dAx).name = "i" ∧ (h2.axes.getD i dAx).name = "level"))

/-- Strict preservation: pre-existing axis objects are untouched (new ones
may be appended). -/
def heapPreservedAx (h h2 : Heap) : Prop :=
  h.axes.length ≤ h2.axes.length ∧
  ∀ i, i < h.axes.length → h2.axes.getD i dAx = h.axes.getD i dAx

theorem heapEvolved_refl (h : Heap) : heapEvolved h h :=
  ⟨Nat.le_refl _, fun _ _ => ⟨⟨rfl, rfl, rfl⟩, Or.inl rfl⟩⟩

theorem heapPreservedAx_imp_evolved (h h2 : Heap) (hp : heapPreservedAx h h2) :
    heapEvolved h h2 := by
  refine ⟨hp.1, ?_⟩
  intro i hi
  rw [hp.2 i hi]
  exact ⟨⟨rfl, rfl, rfl⟩, Or.inl rfl⟩

theorem heapEvolved_trans (h1 h2 h3 : Heap)
    (ha : heapEvolved h1 h2) (hb : heapEvolved h2 h3) : heapEvolved h1 h3 := by
  refine ⟨Nat.le_trans ha.1 hb.1, ?_⟩
  intro i hi
  have hi2 : i < h2.axes.length := Nat.lt_of_lt_of_le hi ha.1
  obtain ⟨⟨ca1, ca2, ca3⟩, na⟩ := ha.2 i hi
  obtain ⟨⟨cb1, cb2, cb3⟩, nb⟩ := hb.2 i hi2
  refine ⟨⟨cb1.trans ca1, cb2.trans ca2, cb3.trans ca3⟩, ?_⟩
  rcases na with na | ⟨na1, na2⟩
  · rcases nb with nb | ⟨nb1, nb2⟩
    · exact Or.inl (nb.trans na)
    · exact Or.inr ⟨na ▸ nb1, nb2⟩
  · rcases nb with nb | ⟨nb1, nb2⟩
    · exact Or.inr ⟨na1, nb.trans na2⟩
    · rw [na2] at nb1
      exact absurd nb1 (by decide)

theorem heapPreservedAx_refl (h : Heap) : heapPreservedAx h h :=
  ⟨Nat.le_refl _, fun _ _ => rfl⟩

theorem heapPreservedAx_trans (h1 h2 h3 : Heap)
    (ha : heapPreservedAx h1 h2) (hb : heapPreservedAx h2 h3) :
    heapPreservedAx h1 h3 := by
  refine ⟨Nat.le_trans ha.1 hb.1, ?_⟩
  intro i hi
  rw [hb.2 i (Nat.lt_of_lt_of_le hi ha.1), ha.2 i hi]

/-- The in-place rename of an axis actually named `i` respects the
evolution discipline. -/
theorem heapEvolved_rename (h : Heap) (i : Nat) (hname : h.axName i = "i") :
    heapEvolved h (h.renameAxis i "level") := by
  refine ⟨by rw [length_rename], ?_⟩
  intro j hj
  by_cases hij : i = j
  · subst hij
    have he : (h.renameAxis i "level").axes.getD i dAx =
        { h.axes.getD i dAx with name := "level" } := by
      unfold Heap.renameAxis
      exact getD_set_self _ _ _ _ hj
    rw [he]
    exact ⟨⟨rfl, rfl, rfl⟩, Or.inr ⟨hname, rfl⟩⟩
  · rw [getD_rename_ne h i j _ hij]
    exact ⟨⟨rfl, rfl, rfl⟩, Or.inl rfl⟩

theorem heapPreservedAx_allocAxis (h : Heap) (a : Axis) :
    heapPreservedAx h (h.allocAxis a).1 := by
  refine ⟨by rw [length_alloc]; omega, ?_⟩
  intro i hi
  exact getD_alloc_lt h a i hi

theorem heapPreservedAx_allocCoord (h : Heap) (c : Coord) :
    heapPreservedAx h (h.allocCoord c).1 :=
  ⟨Nat.le_refl _, fun _ _ => rfl⟩

/-- The heap outcome of the non-degenerate `i` remapping: either just the
rename, or the rename followed by one allocation. -/
theorem remapIElse_heap (cfg : Config) (s : MkState) (popIdx : Nat) (v : Var)
    (iId : Nat) :
    (remapIElse cfg s popIdx v iId).1.heap = s.heap.renameAxis iId "level" ∨
    ∃ a, (remapIElse cfg s popIdx v iId).1.heap =
      ((s.heap.renameAxis iId "level").allocAxis a).1 := by
  unfold remapIElse
  by_cases ht : (thermoCheck cfg (s.heap.renameAxis iId "level") v.name
      (momCheck cfg (s.heap.renameAxis iId "level") v.name iId)).1 = iId
  · rw [if_pos ht]
    cases hl : alookup s.knownLevels ((s.heap.renameAxis iId "level").axLen iId) with
    | some cached => left; simp [hl]
    | none =>
      right
      refine ⟨dimType "level" ((s.heap.renameAxis iId "level").axLen iId), ?_⟩
      simp [hl]
  · rw [if_neg ht]
    left
    rfl

/-- The remapper's heap evolution for one variable of the third pass. -/
theorem remapI_evolved (cfg : Config) (s : MkState) (stale : Option Nat) (v : Var) :
    heapEvolved s.heap (remapI cfg s stale v).1.heap := by
  cases hfi : findIdxP (fun d => d = "i") (v.dims s.heap) with
  | none =>
    have he : remapI cfg s stale v = (s, v) := by rw [remapI, hfi]
    rw [he]
    exact heapEvolved_refl _
  | some k =>
    have hred := remapI_reduce cfg s stale v k hfi
    obtain ⟨hkl, hkp, _⟩ := findIdxP_spec (fun d => d = "i") (v.dims s.heap) k "" hfi
    have hvl : (v.dims s.heap).length = v.axes.length := by simp [Var.dims]
    have hname : s.heap.axName (v.axes.getD k 0) = "i" := by
      have h1 : (v.dims s.heap).getD k "" = "i" := by simpa using hkp
      have h2 : (v.dims s.heap).getD k "" = s.heap.axName (v.axes.getD k 0) := by
        unfold Var.dims
        exact getD_map_lt s.heap.axName v.axes k 0 "" (by omega)
      rw [h2] at h1
      exact h1
    by_cases hone : s.heap.axLen (v.axes.getD k 0) = 1
    · rw [hred, if_pos hone]
      exact heapEvolved_refl _
    · rw [hred, if_neg hone]
      rcases remapIElse_heap cfg s (stale.getD 0) v (v.axes.getD k 0) with he | ⟨a, he⟩
      · rw [he]
        exact heapEvolved_rename _ _ hname
      · rw [he]
        exact heapEvolved_trans _ _ _ (heapEvolved_rename _ _ hname)
          (heapPreservedAx_imp_evolved _ _ (heapPreservedAx_allocAxis _ _))

/-- Heap evolution for one variable of the third pass. -/
theorem passPlusVar_evolved (cfg : Config) (s : MkState) (v : Var) :
    heapEvolved s.heap (passPlusVar cfg s v).1.heap := by
  unfold passPlusVar
  by_cases hc : (isTypvarT v && isGrtypPlus v) = true
  · rw [if_pos hc]
    exact remapI_evolved cfg s _ _
  · rw [if_neg hc]
    exact heapEvolved_refl _

/-- Heap evolution over the whole third pass. -/
theorem passPlusList_evolved (cfg : Config) (vs : List Var) (s : MkState) :
    heapEvolved s.heap (passPlusList cfg s vs).1.heap := by
  induction vs generalizing s with
  | nil => exact heapEvolved_refl _
  | cons v rest ih =>
    exact heapEvolved_trans _ _ _ (passPlusVar_evolved cfg s v)
      (ih (passPlusVar cfg s v).1)

/-- The squash state after one variable: either unchanged or extended by
one creation step. -/
theorem squashVarTail_state (st : SqState) (v : Var) (tidx fidx : Nat) :
    (squashVarTail st v tidx fidx).1 = st ∨
    (squashVarTail st v tidx fidx).1 =
      squashCreate st (v.axes.getD tidx 0) (v.axes.getD fidx 0) := by
  cases hl : alookup st.knownSquashed (v.axes.getD tidx 0, v.axes.getD fidx 0) with
  | some sq => left; simp only [squashVarTail, hl]
  | none => right; simp only [squashVarTail, hl]

/-- The squash creation only appends to the axis arena. -/
theorem squashCreate_preserves (st : SqState) (timeId fcId : Nat) :
    heapPreservedAx st.heap (squashCreate st timeId fcId).heap := by
  rw [squashCreate_eq]
  refine ⟨by simp, ?_⟩
  intro i hi
  simp only
  exact getD_append_lt _ _ _ _ hi

/-- The squash pass never modifies a pre-existing axis object. -/
theorem squashVar_preserves (st : SqState) (v : Var) :
    heapPreservedAx st.heap (squashVar st v).1.heap := by
  cases ht : findIdxP (fun d => d = "time") (v.dims st.heap) with
  | none =>
    have he : squashVar st v = (st, v) := by rw [squashVar, ht]
    rw [he]
    exact heapPreservedAx_refl _
  | some tidx =>
    cases hf : findIdxP (fun d => d = "forecast") (v.dims st.heap) with
    | none =>
      have he : squashVar st v = (st, v) := by rw [squashVar, ht, hf]
      rw [he]
      exact heapPreservedAx_refl _
    | some fidx =>
      rw [squashVar_eq_go st v tidx fidx ht hf]
      unfold squashVarGo
      by_cases hone : st.heap.axLen (v.axes.getD tidx 0) ≠ 1
      · rw [if_pos hone]
        exact heapPreservedAx_refl _
      · rw [if_neg hone]
        rcases squashVarTail_state st v tidx fidx with he | he
        · rw [he]
          exact heapPreservedAx_refl _
        · rw [he]
          exact squashCreate_preserves _ _ _

/-- Preservation over the whole squash pass. -/
theorem squashList_preserves (vs : List Var) (st : SqState) :
    heapPreservedAx st.heap (squashList st vs).1.heap := by
  induction vs generalizing st with
  | nil => exact heapPreservedAx_refl _
  | cons v rest ih =>
    exact heapPreservedAx_trans _ _ _ (squashVar_preserves st v)
      (ih (squashVar st v).1)

/-- The station binder never modifies a pre-existing axis object. -/
theorem bindStationGroup_preserves (h : Heap) (stId gAx : Nat) (vars : List Var) :
    heapPreservedAx h (bindStationGroup h stId gAx vars).1 := by
  unfold bindStationGroup
  by_cases hc : h.axLen gAx = (stationRows (h.coords.getD stId dCoord)).length
  · rw [if_pos hc]
    exact heapPreservedAx_refl _
  · rw [if_neg hc]
    refine ⟨?_, ?_⟩
    · unfold Heap.allocCoord Heap.allocAxis
      simp
    · intro i hi
      unfold Heap.allocCoord Heap.allocAxis
      simp only
      exact getD_append_lt _ _ _ _ hi

/-- The C9 claim as stated is violated by the remapper: a shared `i` axis
object (index 0, held by both variables) is renamed in place, while the
second variable still references the mutated object afterwards. -/
def c9heap : Heap := { axes := [dimType "i" 3], coords := [] }

/-- First profile variable holding axis object 0. -/
def c9v1 : Var :=
  { name := "TT", atts := [("typvar", AttVal.str "T"), ("grtyp", AttVal.str "+")],
    axes := [0], deps := [], recShape := [] }

/-- Second profile variable holding the same axis object 0. -/
def c9v2 : Var :=
  { name := "HU", atts := [("typvar", AttVal.str "T"), ("grtyp", AttVal.str "+")],
    axes := [0], deps := [], recShape := [] }

/-- Empty configuration for the C9 counterexample. -/
def c9cfg : Config :=
  { momentumVars := [], thermoVars := [], forecastAxis := none,
    momentum := none, thermo := none }

/-- Initial remapper state for the C9 counterexample. -/
def c9s : MkState := { heap := c9heap, knownLevels := [], warnings := [] }

/-- Counterexample to C9 as stated: after the remapper pass, the contents
of axis object 0 — shared by reference between both variables — have been
mutated in place (its name changed from `i` to `level`), and the second
variable still holds a reference to the mutated object. -/
theorem claimC9_counterexample :
    0 ∈ c9v1.axes ∧ 0 ∈ c9v2.axes ∧
    (c9s.heap.axes.getD 0 dAx).name = "i" ∧
    ((passPlusList c9cfg c9s [c9v1, c9v2]).1.heap.axes.getD 0 dAx).name = "level" ∧
    ((passPlusList c9cfg c9s [c9v1, c9v2]).2.getD 1 c9v2).axes = [0] := by decide

/-- C9 (amended: the sole in-place mutation of a possibly-shared axis
object after construction is the remapper's renaming of a profile
variable's generic `i` axis object to `level`, its attributes and values
untouched): the third pass only evolves the heap by that rename and by
fresh allocations, and the squash pass and the station binder leave every
pre-existing axis object untouched, only allocating new objects and
replacing entries in the variables' own axis lists.  (The first two
passes return only updated variables and cannot touch the arena at
all.) -/
theorem claimC9_axis_mutation_discipline (cfg : Config) (s : MkState)
    (vs : List Var) (enabled : Bool) (st : SqState) (vs2 : List Var)
    (h : Heap) (stId gAx : Nat) (vars : List Var) :
    heapEvolved s.heap (passPlusList cfg s vs).1.heap ∧
    heapPreservedAx st.heap (squashPass enabled st vs2).1.heap ∧
    heapPreservedAx h (bindStationGroup h stId gAx vars).1 := by
  refine ⟨passPlusList_evolved cfg vs s, ?_, bindStationGroup_preserves h stId gAx vars⟩
  unfold squashPass
  by_cases he : enabled = true
  · rw [if_pos he]
    exact squashList_preserves vs2 st
  · rw [if_neg he]
    exact heapPreservedAx_refl _

/-- Witness for the amended C9 at concrete states for each of the three
heap-carrying passes. -/
theorem claimC9_witness :
    heapEvolved c9s.heap (passPlusList c9cfg c9s [c9v1, c9v2]).1.heap ∧
    heapPreservedAx c6stB.heap (squashPass true c6stB [c6v]).1.heap ∧
    heapPreservedAx c8heap (bindStationGroup c8heap 0 2 [c8v]).1 :=
  claimC9_axis_mutation_discipline c9cfg c9s [c9v1, c9v2] true c6stB [c6v] c8heap 0 2 [c8v]

/-- C3: every element of the forecast axis equals the raw validity hour
minus the hour-of-day of the origin timestamp, the axis carries unit
`hours`, and for origin hour 12 with raw hours `[12, 15, 18]` the axis is
`[0, 3, 6]`. -/
theorem claimC3_forecast_axis (dateo : Nat) (d : List Int) :
    (makeForecastAxis dateo d).vals =
      some (d.map (fun x => x - (hourOfDay dateo : Int))) ∧
    getAtt (makeForecastAxis dateo d).atts "units" = some (AttVal.str "hours") ∧
    (makeForecastAxis 43200 [12, 15, 18]).vals = some [0, 3, 6] := by
  refine ⟨rfl, rfl, by decide⟩

end Fstd2ncSeries
